import Mathlib

/-!
Verification of the Mate live-captioning core.

This file gives a shallow embedding, in Lean 4, of the parts of the
repository that the verified properties talk about:

* `src/mate/audio/caption_manager.py` — `CaptionBlock`, `CaptionManager`
  (`add_caption`, `_handle_partial`, `_handle_final`, `_text_similarity`,
  `_merge_texts`), including a faithful embedding of Python's
  `difflib.SequenceMatcher.ratio` (no junk handling; `autojunk` never
  fires for strings shorter than 200 characters, which is the regime the
  statements below use);
* `src/mate/audio/whisper_processor.py` — the per-channel three-layer
  state machine (`_process_layer_a`, `_process_layer_b`,
  `_check_layer_c_finalize`, `_trim_audio_buffer`), with the external
  transcription backends and the per-window speech verdicts supplied as
  oracle parameters, and `uuid.uuid4()` modelled as a fresh-counter
  generator;
* `src/mate/audio/vad_OLD.py` — `VADDetector.process_frame` /
  `process_buffer` with the raw per-frame webrtcvad verdict abstracted as
  an input (webrtcvad is an external library whose verdict depends only
  on the frame bytes and sample rate).

Python `float` values are embedded as exact rationals (`ℚ`), Python
strings as Lean `String`, with the Python string primitives embedded as
executable list-based functions (`pyStrip` for `str.strip()`, `pyLower`
for `str.lower()`, `pyTake`/`pyDrop` for code-point slicing, and so on).
The Python idiom `x or y` on floats/optionals (which falls through on
`None` *and* on the falsy float `0.0`) is embedded by `pyOr`.
-/

/-- Audio channel identity: the two channels of the pipeline. -/
inductive Channel
  | mic
  | speaker
deriving DecidableEq, Repr

/-- The `Literal["A", "B", "C", "legacy"]` layer tag of `CaptionBlock` /
`CaptionFrame` in `mate/core/state.py` and `caption_manager.py`. -/
inductive Layer
  | A
  | B
  | C
  | legacy
deriving DecidableEq, Repr

/-- Embedding of the Python idiom `x or default` applied to a
`float | None` value: `None` and the falsy float `0.0` both fall through
to the default. Used for `frame.end_time or frame.start_time` and
`self._utterance_start[channel] or current_time`. -/
def pyOr (x : Option ℚ) (default : ℚ) : ℚ :=
  match x with
  | none => default
  | some v => if v = 0 then default else v

/-! ## Python string primitives

Embedded on the character list underlying the string, so that every
operation is structurally recursive (hence computable by the kernel).
Python strings index by code point, which matches `List Char`. -/

/-- `str.lower()` (ASCII-faithful; the texts in the statements below are
ASCII). -/
def pyLower (s : String) : String := String.mk (s.data.map Char.toLower)

/-- `str.strip()`: drop leading and trailing whitespace. -/
def pyStrip (s : String) : String :=
  String.mk (((s.data.dropWhile Char.isWhitespace).reverse.dropWhile
    Char.isWhitespace).reverse)

/-- `s[:n]` — the first `n` code points. -/
def pyTake (s : String) (n : Nat) : String := String.mk (s.data.take n)

/-- `s[n:]` — everything from code point `n` on. -/
def pyDrop (s : String) (n : Nat) : String := String.mk (s.data.drop n)

/-- `len(s)` in code points. -/
def pyLen (s : String) : Nat := s.data.length

/-- `s.startswith(p)`. -/
def pyStartsWith (s p : String) : Bool := p.data.isPrefixOf s.data

/-- Contiguous-substring check on character lists (`sub in hay` for
Python strings). -/
def infixCheck (sub : List Char) : List Char → Bool
  | [] => sub.isEmpty
  | c :: t => sub.isPrefixOf (c :: t) || infixCheck sub t

/-- `sub in hay` for Python strings. -/
def strContains (hay sub : String) : Bool := infixCheck sub.data hay.data

theorem isPrefixOf_iff {l₁ l₂ : List Char} : l₁.isPrefixOf l₂ = true ↔ l₁ <+: l₂ := by
  exact List.isPrefixOf_iff_prefix

/-- `infixCheck` decides the standard contiguous-sublist relation. -/
theorem infixCheck_iff (sub : List Char) :
    ∀ hay, infixCheck sub hay = true ↔ sub <:+: hay := by
  intro hay
  induction hay with
  | nil =>
    simp [infixCheck, List.isEmpty_iff]
  | cons c t ih =>
    simp only [infixCheck, Bool.or_eq_true, isPrefixOf_iff, ih]
    exact (List.infix_cons_iff).symm

/-- A fold preserves any invariant preserved by its step function. -/
theorem foldl_inv {α β : Type} (P : β → Prop) (f : β → α → β) :
    ∀ (l : List α) (init : β), P init →
      (∀ acc x, x ∈ l → P acc → P (f acc x)) → P (l.foldl f init) := by
  intro l
  induction l with
  | nil => intro init h0 _; exact h0
  | cons x t ih =>
    intro init h0 hstep
    exact ih (f init x) (hstep init x (by simp) h0)
      (fun acc y hy h => hstep acc y (by simp [hy]) h)

/-! ## difflib.SequenceMatcher (no junk)

`CaptionManager._text_similarity` calls
`difflib.SequenceMatcher(None, t1, t2).ratio()`.  With no junk argument
and `len(b) < 200` (no autojunk), `find_longest_match` returns the
longest common *contiguous* block of the two windows, ties broken by the
smallest index in `a`, then the smallest index in `b`; `ratio` is
`2*M/T` where `M` is the total size of all matched blocks found by
recursing left and right of the longest match, and `T` the sum of the
lengths (`1.0` when both strings are empty). -/

/-- Length of the longest common suffix of `a[alo..i]` and `b[blo..j]`
(the `j2len` chain length in difflib's `find_longest_match` dynamic
programming): the number of consecutive matching positions ending at
`(i, j)`, clipped at the window's lower bounds `alo`, `blo`.
Structurally recursive on `i`; the guard `alo ≤ i' ∧ blo ≤ j'` is the
Python `j2len.get(j-1, 0)` clipping, phrased on the decremented
indices. -/
def matchLen (a b : List Char) (alo blo : Nat) : Nat → Nat → Nat
  | 0, j =>
    if alo ≤ 0 ∧ blo ≤ j ∧ (a[0]?).isSome ∧ a[0]? = b[j]? then 1 else 0
  | i' + 1, 0 =>
    if alo ≤ i' + 1 ∧ blo ≤ 0 ∧ (a[i' + 1]?).isSome ∧ a[i' + 1]? = b[0]? then 1 else 0
  | i' + 1, j' + 1 =>
    if alo ≤ i' + 1 ∧ blo ≤ j' + 1 ∧ (a[i' + 1]?).isSome ∧ a[i' + 1]? = b[j' + 1]? then
      if alo ≤ i' ∧ blo ≤ j' then matchLen a b alo blo i' j' + 1 else 1
    else 0

theorem matchLen_le_left (a b : List Char) (alo blo : Nat) :
    ∀ i j, matchLen a b alo blo i j ≤ i + 1 - alo := by
  intro i
  induction i with
  | zero =>
    intro j
    simp only [matchLen]
    split
    · next hc => omega
    · omega
  | succ i' ih =>
    intro j
    match j with
    | 0 =>
      simp only [matchLen]
      split
      · next hc => omega
      · omega
    | j' + 1 =>
      simp only [matchLen]
      split
      · next hc =>
        split
        · next h => have := ih j'; omega
        · next h => omega
      · omega

theorem matchLen_le_right (a b : List Char) (alo blo : Nat) :
    ∀ i j, matchLen a b alo blo i j ≤ j + 1 - blo := by
  intro i
  induction i with
  | zero =>
    intro j
    simp only [matchLen]
    split
    · next hc => omega
    · omega
  | succ i' ih =>
    intro j
    match j with
    | 0 =>
      simp only [matchLen]
      split
      · next hc => omega
      · omega
    | j' + 1 =>
      simp only [matchLen]
      split
      · next hc =>
        split
        · next h => have := ih j'; omega
        · next h => omega
      · omega

theorem matchLen_pos (a b : List Char) (alo blo i j : Nat)
    (h : 0 < matchLen a b alo blo i j) : alo ≤ i ∧ blo ≤ j := by
  match i, j with
  | 0, j =>
    simp only [matchLen] at h
    split at h
    · next hc => exact ⟨hc.1, hc.2.1⟩
    · omega
  | i' + 1, 0 =>
    simp only [matchLen] at h
    split at h
    · next hc => exact ⟨hc.1, hc.2.1⟩
    · omega
  | i' + 1, j' + 1 =>
    simp only [matchLen] at h
    split at h
    · next hc => exact ⟨hc.1, hc.2.1⟩
    · omega

/-- One row of difflib's `find_longest_match` scan: fold over the
positions `j` of the `b`-window, updating the best block exactly when
the chain length strictly exceeds the best size so far (Python updates
on `k > bestsize`). -/
def flmRow (a b : List Char) (alo blo bhi : Nat) (best : Nat × Nat × Nat) (i : Nat) :
    Nat × Nat × Nat :=
  (List.range' blo (bhi - blo)).foldl
    (fun best j =>
      let k := matchLen a b alo blo i j
      if k > best.2.2 then (i + 1 - k, j + 1 - k, k) else best)
    best

/-- difflib's `find_longest_match(alo, ahi, blo, bhi)` for a junk-free
matcher: returns `(besti, bestj, bestsize)`, the longest common
contiguous block of `a[alo:ahi]` and `b[blo:bhi]` (first such block in
scan order).  The junk-extension loops of the Python code are no-ops
when the junk sets are empty. -/
def findLongestMatch (a b : List Char) (alo ahi blo bhi : Nat) : Nat × Nat × Nat :=
  (List.range' alo (ahi - alo)).foldl (flmRow a b alo blo bhi) (alo, blo, 0)

/-- A best block carried through one row of the scan stays inside the
window. -/
theorem flmRow_good (a b : List Char) (alo ahi blo bhi i : Nat)
    (hi : alo ≤ i ∧ i < ahi) (best : Nat × Nat × Nat)
    (hbest : 0 < best.2.2 →
      alo ≤ best.1 ∧ best.1 + best.2.2 ≤ ahi ∧ blo ≤ best.2.1 ∧ best.2.1 + best.2.2 ≤ bhi) :
    0 < (flmRow a b alo blo bhi best i).2.2 →
      alo ≤ (flmRow a b alo blo bhi best i).1 ∧
      (flmRow a b alo blo bhi best i).1 + (flmRow a b alo blo bhi best i).2.2 ≤ ahi ∧
      blo ≤ (flmRow a b alo blo bhi best i).2.1 ∧
      (flmRow a b alo blo bhi best i).2.1 + (flmRow a b alo blo bhi best i).2.2 ≤ bhi := by
  unfold flmRow
  refine foldl_inv
    (fun t => 0 < t.2.2 → alo ≤ t.1 ∧ t.1 + t.2.2 ≤ ahi ∧ blo ≤ t.2.1 ∧ t.2.1 + t.2.2 ≤ bhi)
    (fun best j =>
      let k := matchLen a b alo blo i j
      if k > best.2.2 then (i + 1 - k, j + 1 - k, k) else best)
    (List.range' blo (bhi - blo)) best hbest ?_
  intro c2 j hj hc2
  dsimp only
  split
  · next hk =>
    dsimp only
    intro _
    have h1 := matchLen_le_left a b alo blo i j
    have h2 := matchLen_le_right a b alo blo i j
    have h3 := matchLen_pos a b alo blo i j (by omega)
    have hjr := List.mem_range'_1.mp hj
    omega
  · exact hc2

/-- A nonempty best block returned by `find_longest_match` lies inside
the window. -/
theorem flm_good (a b : List Char) (alo ahi blo bhi : Nat) :
    0 < (findLongestMatch a b alo ahi blo bhi).2.2 →
      alo ≤ (findLongestMatch a b alo ahi blo bhi).1 ∧
      (findLongestMatch a b alo ahi blo bhi).1 +
        (findLongestMatch a b alo ahi blo bhi).2.2 ≤ ahi ∧
      blo ≤ (findLongestMatch a b alo ahi blo bhi).2.1 ∧
      (findLongestMatch a b alo ahi blo bhi).2.1 +
        (findLongestMatch a b alo ahi blo bhi).2.2 ≤ bhi := by
  unfold findLongestMatch
  refine foldl_inv
    (fun t => 0 < t.2.2 → alo ≤ t.1 ∧ t.1 + t.2.2 ≤ ahi ∧ blo ≤ t.2.1 ∧ t.2.1 + t.2.2 ≤ bhi)
    (flmRow a b alo blo bhi) (List.range' alo (ahi - alo)) (alo, blo, 0)
    (by dsimp only; omega) ?_
  intro cur i hi hcur
  have hir := List.mem_range'_1.mp hi
  exact flmRow_good a b alo ahi blo bhi i (by omega) cur hcur

/-- Total size `M` of all matching blocks found by difflib's
`get_matching_blocks`, with explicit recursion fuel: the size of the
longest match of the window plus the totals of the sub-windows strictly
to its left and right (the order in which difflib's queue visits the
sub-windows does not affect the sum).  Each recursive call strictly
shrinks the `a`-window (`flm_good`), so fuel `ahi - alo` is always
sufficient; `matchingTotalF_fuel` below proves the result does not
depend on the fuel once it is at least `ahi - alo`. -/
def matchingTotalF (a b : List Char) : Nat → Nat → Nat → Nat → Nat → Nat
  | 0, _, _, _, _ => 0
  | fuel + 1, alo, ahi, blo, bhi =>
    let t := findLongestMatch a b alo ahi blo bhi
    if 0 < t.2.2 then
      (if alo < t.1 ∧ blo < t.2.1 then matchingTotalF a b fuel alo t.1 blo t.2.1 else 0) +
        t.2.2 +
        (if t.1 + t.2.2 < ahi ∧ t.2.1 + t.2.2 < bhi then
          matchingTotalF a b fuel (t.1 + t.2.2) ahi (t.2.1 + t.2.2) bhi
        else 0)
    else 0

/-- The matched total of difflib's `get_matching_blocks` on the windows
`a[alo:ahi]`, `b[blo:bhi]`. -/
def matchingTotal (a b : List Char) (alo ahi blo bhi : Nat) : Nat :=
  matchingTotalF a b (ahi - alo) alo ahi blo bhi

/-- Fuel irrelevance: any fuel of at least the `a`-window size computes
the same matched total, so `matchingTotal`'s choice `ahi - alo` is
sufficient. -/
theorem matchingTotalF_fuel (a b : List Char) :
    ∀ f₁ f₂ alo ahi blo bhi, ahi - alo ≤ f₁ → ahi - alo ≤ f₂ →
      matchingTotalF a b f₁ alo ahi blo bhi = matchingTotalF a b f₂ alo ahi blo bhi := by
  intro f₁
  induction f₁ with
  | zero =>
    intro f₂ alo ahi blo bhi h1 h2
    match f₂ with
    | 0 => rfl
    | g + 1 =>
      show matchingTotalF a b 0 alo ahi blo bhi = _
      rw [matchingTotalF, matchingTotalF]
      have hg := flm_good a b alo ahi blo bhi
      split
      · next hk => have := hg hk; omega
      · rfl
  | succ g₁ ih =>
    intro f₂ alo ahi blo bhi h1 h2
    match f₂ with
    | 0 =>
      rw [matchingTotalF, matchingTotalF]
      have hg := flm_good a b alo ahi blo bhi
      split
      · next hk => have := hg hk; omega
      · rfl
    | g₂ + 1 =>
      rw [matchingTotalF, matchingTotalF]
      have hg := flm_good a b alo ahi blo bhi
      split
      · next hk =>
        have hb := hg hk
        have hleft : (findLongestMatch a b alo ahi blo bhi).1 - alo ≤ g₁ := by omega
        have hleft2 : (findLongestMatch a b alo ahi blo bhi).1 - alo ≤ g₂ := by omega
        have hright : ahi - ((findLongestMatch a b alo ahi blo bhi).1 +
            (findLongestMatch a b alo ahi blo bhi).2.2) ≤ g₁ := by omega
        have hright2 : ahi - ((findLongestMatch a b alo ahi blo bhi).1 +
            (findLongestMatch a b alo ahi blo bhi).2.2) ≤ g₂ := by omega
        rw [show matchingTotalF a b g₁ alo (findLongestMatch a b alo ahi blo bhi).1 blo
              (findLongestMatch a b alo ahi blo bhi).2.1 =
            matchingTotalF a b g₂ alo (findLongestMatch a b alo ahi blo bhi).1 blo
              (findLongestMatch a b alo ahi blo bhi).2.1 from
          ih g₂ alo (findLongestMatch a b alo ahi blo bhi).1 blo
            (findLongestMatch a b alo ahi blo bhi).2.1 hleft hleft2]
        rw [show matchingTotalF a b g₁ ((findLongestMatch a b alo ahi blo bhi).1 +
              (findLongestMatch a b alo ahi blo bhi).2.2) ahi
              ((findLongestMatch a b alo ahi blo bhi).2.1 +
                (findLongestMatch a b alo ahi blo bhi).2.2) bhi =
            matchingTotalF a b g₂ ((findLongestMatch a b alo ahi blo bhi).1 +
              (findLongestMatch a b alo ahi blo bhi).2.2) ahi
              ((findLongestMatch a b alo ahi blo bhi).2.1 +
                (findLongestMatch a b alo ahi blo bhi).2.2) bhi from
          ih g₂ _ ahi _ bhi hright hright2]
      · rfl

/-- `difflib.SequenceMatcher(None, t1, t2).ratio()`: `2*M/T`, or `1.0`
when both sequences are empty. -/
def seqRatio (t1 t2 : List Char) : ℚ :=
  if t1.length + t2.length = 0 then 1
  else (2 * (matchingTotal t1 t2 0 t1.length 0 t2.length : ℚ)) /
    ((t1.length + t2.length : Nat) : ℚ)

/-- `CaptionManager._text_similarity`: lowercase, strip, return `0.0`
when either normalized text is empty, otherwise the sequence-matcher
ratio. -/
def textSimilarity (text1 text2 : String) : ℚ :=
  if pyStrip (pyLower text1) = "" ∨ pyStrip (pyLower text2) = "" then 0
  else seqRatio (pyStrip (pyLower text1)).data (pyStrip (pyLower text2)).data

set_option maxRecDepth 4000 in
/-- The matched total of the running example: `"hello wor"` is a
contiguous block of `"hello world"`. -/
theorem matchingTotal_example :
    matchingTotal (pyStrip (pyLower "hello world")).data (pyStrip (pyLower "hello wor")).data
      0 (pyStrip (pyLower "hello world")).data.length
      0 (pyStrip (pyLower "hello wor")).data.length = 9 := by
  decide

theorem textSimilarity_example : textSimilarity "hello world" "hello wor" = 9/10 := by
  unfold textSimilarity
  rw [if_neg (by decide)]
  unfold seqRatio
  rw [if_neg (by decide), matchingTotal_example]
  rw [show ((pyStrip (pyLower "hello world")).data.length +
      (pyStrip (pyLower "hello wor")).data.length : Nat) = 20 from rfl]
  norm_num

example : textSimilarity "abc" "xyz" = 0 := by
  unfold textSimilarity
  rw [if_neg (by decide)]
  unfold seqRatio
  rw [if_neg (by decide)]
  rw [show matchingTotal (pyStrip (pyLower "abc")).data (pyStrip (pyLower "xyz")).data
      0 (pyStrip (pyLower "abc")).data.length
      0 (pyStrip (pyLower "xyz")).data.length = 0 from rfl]
  norm_num

example : textSimilarity "  " "abc" = 0 := by
  unfold textSimilarity
  rw [if_pos (by decide)]

/-! ## CaptionManager (`caption_manager.py`) -/

/-- `CaptionBlock` (timeline entry), as in `caption_manager.py`.  The
Python field `is_partial` is called `isPartial` here. -/
structure CaptionBlock where
  start_time : ℚ
  end_time : ℚ
  text : String
  layer : Layer
  confidence : ℚ
  caption_id : String
  channel : Channel
  speaker : String
  isPartial : Bool
deriving DecidableEq, Repr

/-- `CaptionBlock.overlaps`:
`not (self.end_time <= other.start_time or self.start_time >= other.end_time)`. -/
def CaptionBlock.overlaps (b other : CaptionBlock) : Bool :=
  ! (decide (b.end_time ≤ other.start_time) || decide (b.start_time ≥ other.end_time))

theorem overlaps_comm (x y : CaptionBlock) : x.overlaps y = y.overlaps x := by
  unfold CaptionBlock.overlaps
  rw [Bool.or_comm]

/-- `CaptionFrame` (`mate/core/state.py`), restricted to the fields the
caption manager reads.  The Python field `is_partial` is called
`isPartial` here; `end_time` is `float | None`. -/
structure CaptionFrame where
  text : String
  speaker : String
  channel : Channel
  confidence : ℚ
  isPartial : Bool
  start_time : ℚ
  end_time : Option ℚ
  layer : Layer
  caption_id : String
deriving DecidableEq, Repr

/-- The state of a `CaptionManager`: per-channel timeline of finalized
blocks and per-channel active partial. -/
structure CMState where
  max_history : Nat
  timeline : Channel → List CaptionBlock
  activePartial : Channel → Option CaptionBlock

/-- `CaptionManager(max_history=100)` as constructed by
`WhisperProcessor.__init__`. -/
def initManager : CMState :=
  { max_history := 100, timeline := fun _ => [], activePartial := fun _ => none }

/-- The `layer_priority` dict of `_handle_partial`. -/
def layerPriority : Layer → Nat
  | .A => 1
  | .B => 2
  | .C => 3
  | .legacy => 0

/-- `CaptionManager._merge_texts(old_text, new_text)`. -/
def mergeTexts (old_text new_text : String) : String :=
  if strContains (pyLower new_text) (pyLower old_text) then new_text
  else if strContains (pyLower old_text) (pyLower new_text) then old_text
  else if pyStartsWith (pyLower new_text) (pyLower (pyTake old_text (min 20 (pyLen old_text))))
    then new_text
  else new_text

/-- Replace the active partial of one channel. -/
def setActive (st : CMState) (ch : Channel) (v : Option CaptionBlock) : CMState :=
  { st with activePartial := fun c => if c = ch then v else st.activePartial c }

/-- Replace the timeline of one channel. -/
def setTimeline (st : CMState) (ch : Channel) (tl : List CaptionBlock) : CMState :=
  { st with timeline := fun c => if c = ch then tl else st.timeline c }

/-- `CaptionManager._handle_partial(block, timeline)`: returns the new
manager state and the `CaptionBlock | None` result. -/
def handlePartial (st : CMState) (block : CaptionBlock) : CMState × Option CaptionBlock :=
  match st.activePartial block.channel with
  | none => (setActive st block.channel (some block), some block)
  | some current =>
    if layerPriority block.layer > layerPriority current.layer ∨
        block.confidence - current.confidence > 15/100 then
      (setActive st block.channel (some block), some block)
    else if textSimilarity block.text current.text > 7/10 then
      let merged := { block with text := mergeTexts current.text block.text }
      (setActive st block.channel (some merged), some merged)
    else
      (st, none)

/-- The comparison `list.sort(key=lambda b: b.start_time)` uses. -/
def blockLE (b1 b2 : CaptionBlock) : Bool := decide (b1.start_time ≤ b2.start_time)

/-- `CaptionManager._handle_final(block, timeline)`: clear the active
partial, remove every overlapping entry, append the new block, re-sort
by `start_time` (Python's stable sort), and pop the oldest entry when
the history cap is exceeded. -/
def handleFinal (st : CMState) (block : CaptionBlock) : CMState × Option CaptionBlock :=
  let st1 := setActive st block.channel none
  let kept := (st1.timeline block.channel).filter (fun b => ! b.overlaps block)
  let sorted := (kept ++ [block]).mergeSort blockLE
  let trimmed := if sorted.length > st.max_history then sorted.tail else sorted
  (setTimeline st1 block.channel trimmed, some block)

/-- The `CaptionBlock` that `add_caption` builds from a frame
(`end_time=frame.end_time or frame.start_time` — Python `or`). -/
def frameBlock (frame : CaptionFrame) : CaptionBlock :=
  { start_time := frame.start_time
    end_time := pyOr frame.end_time frame.start_time
    text := frame.text
    layer := frame.layer
    confidence := frame.confidence
    caption_id := frame.caption_id
    channel := frame.channel
    speaker := frame.speaker
    isPartial := frame.isPartial }

/-- `CaptionManager.add_caption(frame)`. -/
def addCaption (st : CMState) (frame : CaptionFrame) : CMState × Option CaptionBlock :=
  if frame.isPartial then handlePartial st (frameBlock frame)
  else handleFinal st (frameBlock frame)

/-- Run a sequence of `add_caption` calls from a fresh manager. -/
def applyCaptions (frames : List CaptionFrame) : CMState :=
  frames.foldl (fun s f => (addCaption s f).1) initManager

/-! ## C1 — non-overlap invariant of the finalized timeline -/

/-- No two entries of the list overlap. -/
def NonOverlap (l : List CaptionBlock) : Prop :=
  l.Pairwise (fun x y => x.overlaps y = false)

theorem handlePartial_timeline (st : CMState) (b : CaptionBlock) (c : Channel) :
    ((handlePartial st b).1).timeline c = st.timeline c := by
  unfold handlePartial setActive
  cases st.activePartial b.channel with
  | none => rfl
  | some cur =>
    dsimp only
    split
    · rfl
    · split
      · rfl
      · rfl

theorem nonOverlap_handleFinal (st : CMState) (b : CaptionBlock)
    (h : ∀ c, NonOverlap (st.timeline c)) :
    ∀ c, NonOverlap (((handleFinal st b).1).timeline c) := by
  intro c
  unfold handleFinal setTimeline setActive
  dsimp only
  by_cases hch : c = b.channel
  · rw [if_pos hch]
    have hkept : NonOverlap ((st.timeline b.channel).filter (fun x => ! x.overlaps b)) :=
      List.Pairwise.sublist (List.filter_sublist _) (h b.channel)
    have hmem : ∀ x ∈ (st.timeline b.channel).filter (fun x => ! x.overlaps b),
        x.overlaps b = false := by
      intro x hx
      have := (List.mem_filter.mp hx).2
      simpa using this
    have happ : NonOverlap ((st.timeline b.channel).filter (fun x => ! x.overlaps b) ++ [b]) := by
      rw [NonOverlap, List.pairwise_append]
      refine ⟨hkept, List.pairwise_singleton _ _, ?_⟩
      intro x hx y hy
      rw [List.mem_singleton] at hy
      subst hy
      exact hmem x hx
    have hsorted : NonOverlap
        (((st.timeline b.channel).filter (fun x => ! x.overlaps b) ++ [b]).mergeSort blockLE) := by
      refine List.Pairwise.perm happ (List.mergeSort_perm _ _).symm ?_
      intro x y hxy
      rw [overlaps_comm]
      exact hxy
    split
    · exact List.Pairwise.sublist (List.tail_sublist _) hsorted
    · exact hsorted
  · rw [if_neg hch]
    exact h c

/-- C1: for every channel, after any sequence of `add_caption` calls
starting from a fresh `CaptionManager`, no two blocks in that channel's
finalized timeline have overlapping `[start_time, end_time]` intervals
(in the sense of `CaptionBlock.overlaps`). -/
theorem timeline_nonoverlap_invariant (frames : List CaptionFrame) (ch : Channel) :
    ((applyCaptions frames).timeline ch).Pairwise (fun x y => x.overlaps y = false) := by
  have main : ∀ c, NonOverlap ((applyCaptions frames).timeline c) := by
    unfold applyCaptions
    refine foldl_inv (fun st => ∀ c, NonOverlap (st.timeline c))
      (fun s f => (addCaption s f).1) frames initManager ?_ ?_
    · intro c
      simp [initManager, NonOverlap]
    · intro st f _ h
      show ∀ c, NonOverlap (((addCaption st f).1).timeline c)
      by_cases hp : f.isPartial = true
      · have he : (addCaption st f).1 = (handlePartial st (frameBlock f)).1 := by
          unfold addCaption
          rw [if_pos hp]
        intro c
        rw [he, handlePartial_timeline]
        exact h c
      · have he : (addCaption st f).1 = (handleFinal st (frameBlock f)).1 := by
          unfold addCaption
          rw [if_neg hp]
        intro c
        rw [he]
        exact nonOverlap_handleFinal st (frameBlock f) h c
  exact main ch

/-! ## C10 — partial frames only touch the active-partial slot -/

theorem handlePartial_active_other (st : CMState) (b : CaptionBlock) (c : Channel)
    (hc : c ≠ b.channel) :
    ((handlePartial st b).1).activePartial c = st.activePartial c := by
  unfold handlePartial setActive
  cases st.activePartial b.channel with
  | none =>
    dsimp only
    rw [if_neg hc]
  | some cur =>
    dsimp only
    split
    · dsimp only
      rw [if_neg hc]
    · split
      · dsimp only
        rw [if_neg hc]
      · rfl

/-- C10: a partial `CaptionFrame` leaves the finalized timeline of every
channel unchanged, and only the active-partial slot of the frame's own
channel may change. -/
theorem partial_frame_effect (st : CMState) (f : CaptionFrame) (hp : f.isPartial = true) :
    (∀ c, ((addCaption st f).1).timeline c = st.timeline c) ∧
    (∀ c, c ≠ f.channel → ((addCaption st f).1).activePartial c = st.activePartial c) := by
  have he : (addCaption st f).1 = (handlePartial st (frameBlock f)).1 := by
    unfold addCaption
    rw [if_pos hp]
  constructor
  · intro c
    rw [he, handlePartial_timeline]
  · intro c hc
    rw [he, handlePartial_active_other]
    exact hc

/-- A concrete partial frame for the witnesses. -/
def pFrame : CaptionFrame :=
  { text := "hi there", speaker := "Mic", channel := Channel.mic, confidence := 1/2,
    isPartial := true, start_time := 1, end_time := some 2, layer := Layer.A,
    caption_id := "u1" }

/-- Witness for C10 at a concrete state and frame. -/
theorem partial_frame_effect_witness :
    ((addCaption initManager pFrame).1).timeline Channel.mic = initManager.timeline Channel.mic ∧
    ((addCaption initManager pFrame).1).activePartial Channel.speaker =
      initManager.activePartial Channel.speaker :=
  ⟨(partial_frame_effect initManager pFrame (by decide)).1 Channel.mic,
   (partial_frame_effect initManager pFrame (by decide)).2 Channel.speaker (by decide)⟩

/-! ## C3 — partial replacement policy -/

/-- Branch-by-branch characterization of `_handle_partial`. -/
theorem handlePartial_spec (st : CMState) (b : CaptionBlock) :
    (st.activePartial b.channel = none →
      handlePartial st b = (setActive st b.channel (some b), some b)) ∧
    ∀ cur, st.activePartial b.channel = some cur →
      ((layerPriority b.layer > layerPriority cur.layer ∨
          b.confidence - cur.confidence > 15/100) →
        handlePartial st b = (setActive st b.channel (some b), some b)) ∧
      (¬ (layerPriority b.layer > layerPriority cur.layer ∨
          b.confidence - cur.confidence > 15/100) →
        textSimilarity b.text cur.text > 7/10 →
        handlePartial st b =
          (setActive st b.channel (some { b with text := mergeTexts cur.text b.text }),
            some { b with text := mergeTexts cur.text b.text })) ∧
      (¬ (layerPriority b.layer > layerPriority cur.layer ∨
          b.confidence - cur.confidence > 15/100) →
        ¬ (textSimilarity b.text cur.text > 7/10) →
        handlePartial st b = (st, none)) := by
  constructor
  · intro h
    unfold handlePartial
    rw [h]
  · intro cur h
    refine ⟨?_, ?_, ?_⟩
    · intro hcond
      unfold handlePartial
      rw [h]
      dsimp only
      rw [if_pos hcond]
    · intro hncond hsim
      unfold handlePartial
      rw [h]
      dsimp only
      rw [if_neg hncond, if_pos hsim]
    · intro hncond hnsim
      unfold handlePartial
      rw [h]
      dsimp only
      rw [if_neg hncond, if_neg hnsim]

/-- The active partial `"hello wor"` of the running example. -/
def exCur : CaptionBlock :=
  { start_time := 1, end_time := 2, text := "hello wor", layer := Layer.A,
    confidence := 1/2, caption_id := "u1", channel := Channel.mic, speaker := "Mic",
    isPartial := true }

/-- The incoming partial frame `"hello world"` of the running example. -/
def exFrame : CaptionFrame :=
  { text := "hello world", speaker := "Mic", channel := Channel.mic, confidence := 1/2,
    isPartial := true, start_time := 1, end_time := some 2, layer := Layer.A,
    caption_id := "u1" }

/-- The manager state of the running example: `"hello wor"` is the mic
channel's active partial. -/
def exState : CMState := setActive initManager Channel.mic (some exCur)

/-- C3: `add_caption` on a partial frame follows the priority order of
`_handle_partial`: no active partial → the frame becomes the active
partial and is returned; strictly higher layer or confidence more than
0.15 above → replace; otherwise similarity above 0.7 → merge (a text
that contains the other, case-insensitively, wins — so the longer one is
kept — and otherwise the newer text wins) and the merged block becomes
the active partial; in every remaining case the new partial is
suppressed and `add_caption` returns none.  The final conjunct is the
`"hello wor"`/`"hello world"` merge example. -/
theorem partial_replacement_policy :
    (∀ (st : CMState) (f : CaptionFrame), f.isPartial = true →
      (st.activePartial f.channel = none →
        addCaption st f = (setActive st f.channel (some (frameBlock f)), some (frameBlock f))) ∧
      ∀ cur, st.activePartial f.channel = some cur →
        ((layerPriority f.layer > layerPriority cur.layer ∨
            f.confidence - cur.confidence > 15/100) →
          addCaption st f =
            (setActive st f.channel (some (frameBlock f)), some (frameBlock f))) ∧
        (¬ (layerPriority f.layer > layerPriority cur.layer ∨
            f.confidence - cur.confidence > 15/100) →
          textSimilarity f.text cur.text > 7/10 →
          addCaption st f =
            (setActive st f.channel
              (some { frameBlock f with text := mergeTexts cur.text f.text }),
              some { frameBlock f with text := mergeTexts cur.text f.text })) ∧
        (¬ (layerPriority f.layer > layerPriority cur.layer ∨
            f.confidence - cur.confidence > 15/100) →
          ¬ (textSimilarity f.text cur.text > 7/10) →
          addCaption st f = (st, none))) ∧
    (∀ old new : String,
      (strContains (pyLower new) (pyLower old) = true →
        mergeTexts old new = new ∧ pyLen old ≤ pyLen new) ∧
      (strContains (pyLower new) (pyLower old) = false →
        strContains (pyLower old) (pyLower new) = true →
        mergeTexts old new = old ∧ pyLen new ≤ pyLen old) ∧
      (strContains (pyLower new) (pyLower old) = false →
        strContains (pyLower old) (pyLower new) = false →
        mergeTexts old new = new)) ∧
    (textSimilarity "hello world" "hello wor" > 7/10 ∧
      mergeTexts "hello wor" "hello world" = "hello world" ∧
      addCaption exState exFrame =
        (setActive exState Channel.mic
          (some { frameBlock exFrame with text := mergeTexts "hello wor" "hello world" }),
          some { frameBlock exFrame with text := mergeTexts "hello wor" "hello world" })) := by
  have hmain : ∀ (st : CMState) (f : CaptionFrame), f.isPartial = true →
      (st.activePartial f.channel = none →
        addCaption st f = (setActive st f.channel (some (frameBlock f)), some (frameBlock f))) ∧
      ∀ cur, st.activePartial f.channel = some cur →
        ((layerPriority f.layer > layerPriority cur.layer ∨
            f.confidence - cur.confidence > 15/100) →
          addCaption st f =
            (setActive st f.channel (some (frameBlock f)), some (frameBlock f))) ∧
        (¬ (layerPriority f.layer > layerPriority cur.layer ∨
            f.confidence - cur.confidence > 15/100) →
          textSimilarity f.text cur.text > 7/10 →
          addCaption st f =
            (setActive st f.channel
              (some { frameBlock f with text := mergeTexts cur.text f.text }),
              some { frameBlock f with text := mergeTexts cur.text f.text })) ∧
        (¬ (layerPriority f.layer > layerPriority cur.layer ∨
            f.confidence - cur.confidence > 15/100) →
          ¬ (textSimilarity f.text cur.text > 7/10) →
          addCaption st f = (st, none)) := by
    intro st f hp
    have he : addCaption st f = handlePartial st (frameBlock f) := by
      unfold addCaption
      rw [if_pos hp]
    have hs := handlePartial_spec st (frameBlock f)
    rw [he]
    exact hs
  have hmerge : ∀ old new : String,
      (strContains (pyLower new) (pyLower old) = true →
        mergeTexts old new = new ∧ pyLen old ≤ pyLen new) ∧
      (strContains (pyLower new) (pyLower old) = false →
        strContains (pyLower old) (pyLower new) = true →
        mergeTexts old new = old ∧ pyLen new ≤ pyLen old) ∧
      (strContains (pyLower new) (pyLower old) = false →
        strContains (pyLower old) (pyLower new) = false →
        mergeTexts old new = new) := by
    intro old new
    refine ⟨?_, ?_, ?_⟩
    · intro h
      constructor
      · unfold mergeTexts
        rw [if_pos h]
      · have hinf := (infixCheck_iff (pyLower old).data (pyLower new).data).mp h
        have hlen := hinf.length_le
        simpa [pyLen, pyLower] using hlen
    · intro h1 h2
      constructor
      · unfold mergeTexts
        rw [if_neg (by simp [h1]), if_pos h2]
      · have hinf := (infixCheck_iff (pyLower new).data (pyLower old).data).mp h2
        have hlen := hinf.length_le
        simpa [pyLen, pyLower] using hlen
    · intro h1 h2
      unfold mergeTexts
      rw [if_neg (by simp [h1]), if_neg (by simp [h2])]
      exact ite_self new
  refine ⟨hmain, hmerge, ?_, ?_, ?_⟩
  · rw [textSimilarity_example]
    norm_num
  · have h := (hmerge "hello wor" "hello world").1 (by decide)
    exact h.1
  · have hact : exState.activePartial exFrame.channel = some exCur := rfl
    have hncond : ¬ (layerPriority exFrame.layer > layerPriority exCur.layer ∨
        exFrame.confidence - exCur.confidence > 15/100) := by
      rw [not_or]
      constructor
      · decide
      · show ¬ ((1:ℚ)/2 - 1/2 > 15/100)
        norm_num
    have hsim : textSimilarity exFrame.text exCur.text > 7/10 := by
      show textSimilarity "hello world" "hello wor" > 7/10
      rw [textSimilarity_example]
      norm_num
    have := ((hmain exState exFrame rfl).2 exCur hact).2.1 hncond hsim
    exact this

/-- Witness for C3: a fresh manager has no active partial, so the frame
becomes the active partial and is returned. -/
theorem partial_replacement_policy_witness :
    addCaption initManager pFrame =
      (setActive initManager pFrame.channel (some (frameBlock pFrame)),
        some (frameBlock pFrame)) :=
  (partial_replacement_policy.1 initManager pFrame (by decide)).1 rfl

/-! ## C2 — final frames: clear partial, remove overlaps, sorted insert,
history cap -/

theorem blockLE_trans (x y z : CaptionBlock)
    (h1 : blockLE x y = true) (h2 : blockLE y z = true) : blockLE x z = true := by
  simp only [blockLE, decide_eq_true_eq] at h1 h2 ⊢
  exact le_trans h1 h2

theorem blockLE_total (x y : CaptionBlock) : (blockLE x y || blockLE y x) = true := by
  simp only [blockLE, Bool.or_eq_true, decide_eq_true_eq]
  exact le_total _ _

theorem handleFinal_timeline (st : CMState) (b : CaptionBlock) :
    ((handleFinal st b).1).timeline b.channel =
      if (((st.timeline b.channel).filter (fun x => ! x.overlaps b) ++ [b]).mergeSort
          blockLE).length > st.max_history
      then (((st.timeline b.channel).filter (fun x => ! x.overlaps b) ++ [b]).mergeSort
        blockLE).tail
      else ((st.timeline b.channel).filter (fun x => ! x.overlaps b) ++ [b]).mergeSort
        blockLE := by
  simp [handleFinal, setTimeline, setActive]

theorem handleFinal_spec (st : CMState) (b : CaptionBlock) :
    ((handleFinal st b).1).activePartial b.channel = none ∧
    (∀ x ∈ ((handleFinal st b).1).timeline b.channel,
      x = b ∨ (x ∈ st.timeline b.channel ∧ x.overlaps b = false)) ∧
    (((handleFinal st b).1).timeline b.channel).Pairwise (fun x y => blockLE x y = true) ∧
    (b ∈ ((handleFinal st b).1).timeline b.channel ∨
      ∀ x ∈ ((handleFinal st b).1).timeline b.channel, b.start_time ≤ x.start_time) ∧
    ((st.timeline b.channel).length ≤ st.max_history →
      (((handleFinal st b).1).timeline b.channel).length ≤ st.max_history) := by
  have hperm := List.mergeSort_perm
    ((st.timeline b.channel).filter (fun x => ! x.overlaps b) ++ [b]) blockLE
  have hsorted := List.sorted_mergeSort blockLE_trans blockLE_total
    ((st.timeline b.channel).filter (fun x => ! x.overlaps b) ++ [b])
  refine ⟨?_, ?_, ?_, ?_, ?_⟩
  · simp [handleFinal, setTimeline, setActive]
  · intro x hx
    rw [handleFinal_timeline] at hx
    have hx' : x ∈ ((st.timeline b.channel).filter (fun y => ! y.overlaps b) ++ [b]).mergeSort
        blockLE := by
      split at hx
      · exact (List.tail_sublist _).subset hx
      · exact hx
    have hx2 := hperm.mem_iff.mp hx'
    rw [List.mem_append] at hx2
    cases hx2 with
    | inl h =>
      right
      have := List.mem_filter.mp h
      refine ⟨this.1, ?_⟩
      simpa using this.2
    | inr h =>
      left
      rwa [List.mem_singleton] at h
  · rw [handleFinal_timeline]
    split
    · exact List.Pairwise.sublist (List.tail_sublist _) hsorted
    · exact hsorted
  · have hbmem : b ∈ ((st.timeline b.channel).filter (fun y => ! y.overlaps b) ++ [b]).mergeSort
        blockLE := by
      apply hperm.mem_iff.mpr
      rw [List.mem_append, List.mem_singleton]
      right
      rfl
    rw [handleFinal_timeline]
    split
    · rename_i hlen
      cases hS : ((st.timeline b.channel).filter (fun y => ! y.overlaps b) ++ [b]).mergeSort
          blockLE with
      | nil =>
        rw [hS] at hbmem
        exact absurd hbmem (List.not_mem_nil b)
      | cons hd tl =>
        rw [hS] at hbmem hsorted
        rw [List.tail_cons]
        rcases List.mem_cons.mp hbmem with hb | hb
        · right
          intro x hx
          have hrel := (List.pairwise_cons.mp hsorted).1 x hx
          rw [← hb] at hrel
          simpa [blockLE] using hrel
        · left
          exact hb
    · left
      exact hbmem
  · intro hlen
    rw [handleFinal_timeline]
    have hlenS : (((st.timeline b.channel).filter (fun y => ! y.overlaps b) ++ [b]).mergeSort
        blockLE).length = ((st.timeline b.channel).filter (fun y => ! y.overlaps b)).length + 1 := by
      rw [List.length_mergeSort, List.length_append, List.length_singleton]
    have hfle := List.length_filter_le (fun y => ! y.overlaps b) (st.timeline b.channel)
    split
    · rename_i hgt
      rw [List.length_tail]
      omega
    · rename_i hng
      omega

/-- The `i`-th final frame of the history-cap scenario: the disjoint
interval `[i, i+1]` on the mic channel. -/
def capFrame (i : Nat) : CaptionFrame :=
  { text := "final", speaker := "Mic", channel := Channel.mic, confidence := 19/20,
    isPartial := false, start_time := (i : ℚ), end_time := some ((i : ℚ) + 1),
    layer := Layer.C, caption_id := "c" }

/-- The timeline block built from `capFrame i`. -/
def capBlock (i : Nat) : CaptionBlock := frameBlock (capFrame i)

theorem capBlock_start (i : Nat) : (capBlock i).start_time = (i : ℚ) := rfl

theorem capBlock_end (i : Nat) : (capBlock i).end_time = (i : ℚ) + 1 := by
  show pyOr (some ((i : ℚ) + 1)) (i : ℚ) = (i : ℚ) + 1
  show (if (i : ℚ) + 1 = 0 then (i : ℚ) else (i : ℚ) + 1) = (i : ℚ) + 1
  rw [if_neg]
  positivity

theorem capBlock_no_overlap {i n : Nat} (h : i < n) :
    (capBlock i).overlaps (capBlock n) = false := by
  have hle : ((i : ℚ) + 1 ≤ (n : ℚ)) := by exact_mod_cast h
  unfold CaptionBlock.overlaps
  rw [capBlock_end i, capBlock_start n, decide_eq_true hle, Bool.true_or]
  rfl

theorem capBlock_le {i j : Nat} (h : i ≤ j) : blockLE (capBlock i) (capBlock j) = true := by
  simp only [blockLE, capBlock_start, decide_eq_true_eq]
  exact_mod_cast h

theorem handlePartial_max (st : CMState) (b : CaptionBlock) :
    ((handlePartial st b).1).max_history = st.max_history := by
  unfold handlePartial setActive
  cases st.activePartial b.channel with
  | none => rfl
  | some cur =>
    dsimp only
    split
    · rfl
    · split
      · rfl
      · rfl

theorem handleFinal_max (st : CMState) (b : CaptionBlock) :
    ((handleFinal st b).1).max_history = st.max_history := by
  simp [handleFinal, setTimeline, setActive]

theorem addCaption_max (st : CMState) (f : CaptionFrame) :
    ((addCaption st f).1).max_history = st.max_history := by
  unfold addCaption
  split
  · exact handlePartial_max st (frameBlock f)
  · exact handleFinal_max st (frameBlock f)

/-- Running the first `n` scenario frames leaves the most recent
`min n 100` blocks on the mic timeline (and the history cap stays
100). -/
theorem capTimeline (n : Nat) :
    (applyCaptions ((List.range n).map capFrame)).timeline Channel.mic =
      (List.range' (n - 100) (min n 100)).map capBlock ∧
    (applyCaptions ((List.range n).map capFrame)).max_history = 100 := by
  induction n with
  | zero => exact ⟨rfl, rfl⟩
  | succ n ih =>
    obtain ⟨ihT, ihM⟩ := ih
    have hstep : applyCaptions ((List.range (n + 1)).map capFrame) =
        (addCaption (applyCaptions ((List.range n).map capFrame)) (capFrame n)).1 := by
      rw [List.range_succ, List.map_append]
      unfold applyCaptions
      rw [List.foldl_append]
      rfl
    set st := applyCaptions ((List.range n).map capFrame) with hst
    have hfin : (addCaption st (capFrame n)).1 = (handleFinal st (capBlock n)).1 := by
      unfold addCaption
      rw [if_neg (show ¬ ((capFrame n).isPartial = true) from Bool.false_ne_true)]
      rfl
    constructor
    · rw [hstep, hfin]
      show ((handleFinal st (capBlock n)).1).timeline (capBlock n).channel = _
      rw [handleFinal_timeline]
      have ihT' : st.timeline (capBlock n).channel =
          (List.range' (n - 100) (min n 100)).map capBlock := ihT
      rw [ihT']
      have hfil : ((List.range' (n - 100) (min n 100)).map capBlock).filter
          (fun x => ! x.overlaps (capBlock n)) =
          (List.range' (n - 100) (min n 100)).map capBlock := by
        rw [List.filter_eq_self]
        intro x hx
        rw [List.mem_map] at hx
        obtain ⟨i, hi, rfl⟩ := hx
        have hi' := List.mem_range'_1.mp hi
        rw [capBlock_no_overlap (show i < n by omega)]
        rfl
      rw [hfil]
      have hsorted_eq : (((List.range' (n - 100) (min n 100)).map capBlock ++
          [capBlock n]).mergeSort blockLE) =
          (List.range' (n - 100) (min n 100)).map capBlock ++ [capBlock n] := by
        apply List.mergeSort_of_sorted
        rw [List.pairwise_append]
        refine ⟨?_, List.pairwise_singleton _ _, ?_⟩
        · refine List.Pairwise.map capBlock (fun a b hab => capBlock_le (le_of_lt hab)) ?_
          exact List.pairwise_lt_range' _ _ 1 (by norm_num)
        · intro x hx y hy
          rw [List.mem_singleton] at hy
          subst hy
          rw [List.mem_map] at hx
          obtain ⟨i, hi, rfl⟩ := hx
          have hi' := List.mem_range'_1.mp hi
          exact capBlock_le (show i ≤ n by omega)
      rw [hsorted_eq, ihM]
      rw [List.length_append, List.length_map, List.length_range', List.length_singleton]
      by_cases hn : n < 100
      · rw [if_neg (by omega)]
        rw [show min n 100 = n from by omega, show n - 100 = 0 from by omega,
          show (n + 1) - 100 = 0 from by omega, show min (n + 1) 100 = n + 1 from by omega]
        rw [List.range'_1_concat, List.map_append, Nat.zero_add]
        rfl
      · rw [if_pos (by omega)]
        rw [show min n 100 = 100 from by omega]
        have hriseq : (List.range' (n - 100) 101).map capBlock =
            (List.range' (n - 100) 100).map capBlock ++ [capBlock n] := by
          rw [show (101 : Nat) = 100 + 1 from rfl, List.range'_1_concat, List.map_append,
            show n - 100 + 100 = n from by omega]
          rfl
        rw [← hriseq, List.range'_succ, List.map_cons, List.tail_cons]
        rw [show n - 100 + 1 = (n + 1) - 100 from by omega,
          show min (n + 1) 100 = 100 from by omega]
    · rw [hstep, addCaption_max]
      exact ihM

/-- C2: `add_caption` on a final frame clears the channel's active
partial, keeps only the new block and old non-overlapping entries,
leaves the timeline sorted by `start_time`, keeps the new block unless
it is itself the oldest by `start_time` (the pop-oldest trim), and never
grows a timeline that respects the cap beyond the cap; concretely,
inserting the 150 disjoint scenario blocks leaves exactly the 100 most
recent (`start_time` 50 … 149). -/
theorem final_insert_and_history_cap :
    (∀ (st : CMState) (f : CaptionFrame), f.isPartial = false →
      ((addCaption st f).1).activePartial f.channel = none ∧
      (∀ x ∈ ((addCaption st f).1).timeline f.channel,
        x = frameBlock f ∨ (x ∈ st.timeline f.channel ∧ x.overlaps (frameBlock f) = false)) ∧
      (((addCaption st f).1).timeline f.channel).Pairwise (fun x y => blockLE x y = true) ∧
      (frameBlock f ∈ ((addCaption st f).1).timeline f.channel ∨
        ∀ x ∈ ((addCaption st f).1).timeline f.channel,
          (frameBlock f).start_time ≤ x.start_time) ∧
      ((st.timeline f.channel).length ≤ st.max_history →
        (((addCaption st f).1).timeline f.channel).length ≤ st.max_history)) ∧
    (applyCaptions ((List.range 150).map capFrame)).timeline Channel.mic =
      (List.range' 50 100).map capBlock := by
  constructor
  · intro st f hp
    have he : (addCaption st f).1 = (handleFinal st (frameBlock f)).1 := by
      unfold addCaption
      rw [if_neg (by rw [hp]; exact Bool.false_ne_true)]
    rw [he]
    exact handleFinal_spec st (frameBlock f)
  · exact (capTimeline 150).1

/-- Witness for C2's universally quantified part, at a concrete final
frame on a fresh manager. -/
theorem final_insert_and_history_cap_witness :
    ((addCaption initManager (capFrame 0)).1).activePartial (capFrame 0).channel = none ∧
    (((addCaption initManager (capFrame 0)).1).timeline (capFrame 0).channel).length ≤
      initManager.max_history :=
  ⟨(final_insert_and_history_cap.1 initManager (capFrame 0) (by decide)).1,
    (final_insert_and_history_cap.1 initManager (capFrame 0) (by decide)).2.2.2.2
      (by decide)⟩

/-! ## WhisperProcessor (`whisper_processor.py`) — per-channel three-layer
state machine

The two channels are fully independent (every piece of processor state is
a dict keyed by channel), so the model is the state machine of one
channel.  The transcription backends (`_quick_transcribe` /
`_transcribe_audio_data`, i.e. whisper-cli) are oracle parameters
`fast`, `acc : List ℚ → String` returning the raw transcription text;
the per-window verdict of `_detect_speech` is an oracle boolean per
tick.  `uuid.uuid4()` is modelled as a fresh-counter generator
(`starts`), which is the standard model of an id generator that never
repeats. -/

/-- `_silence_threshold_count = 2`. -/
def silenceThresholdCount : Nat := 2

/-- `int(rate * 0.2)` — the 200 ms Layer A minimum. -/
def layerAMinSamples (rate : Nat) : Nat := rate / 5

/-- `int(rate * 0.4)` — the 400 ms Layer A cap. -/
def layerAMaxSamples (rate : Nat) : Nat := 2 * rate / 5

/-- `int(rate * 2.5)` — the Layer B sliding window. -/
def layerBWindowSamples (rate : Nat) : Nat := 5 * rate / 2

/-- `int(rate * 1.0)` — the Layer B transcription minimum. -/
def layerBMinSamples (rate : Nat) : Nat := rate

/-- `int(rate * 5.0)` — the buffer-trim retention horizon. -/
def trimMaxSamples (rate : Nat) : Nat := rate * 5

/-- `audio[-n:]` — the most recent `n` samples. -/
def lastSamples {α : Type} (l : List α) (n : Nat) : List α := l.drop (l.length - n)

/-- The per-channel state of `WhisperProcessor` that the three-layer
loop reads and writes: `_audio_buffer[ch]`, `_utterance_start[ch]`,
`_utterance_buffer[ch]`, `_silence_counter[ch]`,
`_layer_a_accumulated[ch]`, `_layer_b_accumulated[ch]`,
`_current_layer[ch]`, `_active_caption_id[ch]` (uuid modelled by the
generator counter `starts`). -/
structure WState where
  audioBuffer : List (List ℚ)
  utteranceStart : Option ℚ
  utteranceBuffer : List (List ℚ)
  silenceCounter : Nat
  layerAAcc : String
  layerBAcc : String
  currentLayer : String
  activeCaptionId : Option Nat
  starts : Nat
deriving DecidableEq, Repr

/-- The fresh per-channel state built in `__init__`. -/
def initW : WState :=
  { audioBuffer := []
    utteranceStart := none
    utteranceBuffer := []
    silenceCounter := 0
    layerAAcc := ""
    layerBAcc := ""
    currentLayer := ""
    activeCaptionId := none
    starts := 0 }

/-- The fields of an emitted `CaptionFrame` that the whisper-processor
claims talk about (the channel and speaker label are fixed per worker
thread). -/
structure WFrame where
  text : String
  confidence : ℚ
  isPartial : Bool
  start_time : ℚ
  end_time : ℚ
  layer : String
  captionId : Option Nat
deriving DecidableEq, Repr

/-- `WhisperProcessor._trim_audio_buffer`: keep only the last 5 seconds
of audio, as a single chunk. -/
def trimAudioBuffer (rate : Nat) (st : WState) : WState :=
  if st.audioBuffer = [] then st
  else if st.audioBuffer.flatten.length > trimMaxSamples rate then
    { st with audioBuffer := [lastSamples st.audioBuffer.flatten (trimMaxSamples rate)] }
  else st

/-- The merge-within-layer heuristic shared by Layer A and Layer B
(`new_text.startswith(old_text[:min(20, len(old_text))])` → replace,
otherwise append with a space). -/
def mergeExtend (oldText newText : String) : String :=
  if pyStartsWith newText (pyTake oldText (min 20 (pyLen oldText))) then newText
  else oldText ++ " " ++ newText

/-- Append to `base` whatever of the Layer A accumulation extends beyond
it (the `new_part = layer_a[len(base):].strip()` blocks). -/
def appendSurplus (base la : String) : String :=
  if la ≠ "" ∧ pyLen la > pyLen base then
    if pyStrip (pyDrop la (pyLen base)) ≠ "" then
      base ++ " " ++ pyStrip (pyDrop la (pyLen base))
    else base
  else base

/-- Lines 421–425 of `_process_layer_a`: on the first speech of an
utterance, record the start time, reset the utterance buffer and draw a
fresh caption id (`uuid.uuid4()` modelled by the generator counter). -/
def stepAStart (now : ℚ) (st : WState) : WState :=
  if st.utteranceStart = none then
    { st with
      utteranceStart := some now
      utteranceBuffer := []
      activeCaptionId := some st.starts
      starts := st.starts + 1 }
  else st

/-- Line 428: append the processed window to the utterance buffer. -/
def pushUtterance (audio : List ℚ) (st : WState) : WState :=
  { st with utteranceBuffer := st.utteranceBuffer ++ [audio] }

/-- The ≤ 400 ms window Layer A transcribes. -/
def stepAAudio (rate : Nat) (st : WState) : List ℚ :=
  if st.audioBuffer.flatten.length > layerAMaxSamples rate
  then lastSamples st.audioBuffer.flatten (layerAMaxSamples rate)
  else st.audioBuffer.flatten

/-- The state after Layer A's utterance bookkeeping. -/
def stepAState (rate : Nat) (now : ℚ) (st : WState) : WState :=
  pushUtterance (stepAAudio rate st) (stepAStart now st)

/-- Lines 441–457: merge the new text into the Layer A accumulation;
`_current_layer` becomes `"A"` only from the no-layer state. -/
def stepAMerge (newText : String) (st : WState) : WState :=
  if st.currentLayer = "A" then
    { st with layerAAcc := mergeExtend st.layerAAcc newText }
  else if st.currentLayer = "" then
    { st with layerAAcc := newText, currentLayer := "A" }
  else
    { st with layerAAcc := newText }

/-- Lines 461–473: the display text — when Layer B is active, B's
confirmed text plus Layer A's surplus, otherwise Layer A's text. -/
def stepADisplay (st : WState) : String :=
  if st.currentLayer = "B" then appendSurplus st.layerBAcc st.layerAAcc
  else st.layerAAcc

/-- `WhisperProcessor._process_layer_a`: quick partials.  `speech` is
the `_detect_speech` verdict for the (≤ 400 ms) window, `fast` the
Layer A transcription backend. -/
def stepA (rate : Nat) (fast : List ℚ → String) (speech : Bool) (now : ℚ) (st : WState) :
    WState × Option WFrame :=
  if st.audioBuffer = [] then (st, none) else
  if st.audioBuffer.flatten.length < layerAMinSamples rate then (st, none) else
  if ¬ speech then (st, none) else
  if pyStrip (fast (stepAAudio rate st)) = "" then (stepAState rate now st, none) else
  (stepAMerge (pyStrip (fast (stepAAudio rate st))) (stepAState rate now st),
    some { text := stepADisplay (stepAMerge (pyStrip (fast (stepAAudio rate st)))
             (stepAState rate now st))
           confidence := 1/2
           isPartial := true
           start_time := pyOr (stepAState rate now st).utteranceStart now
           end_time := now
           layer := "A"
           captionId := (stepAMerge (pyStrip (fast (stepAAudio rate st)))
             (stepAState rate now st)).activeCaptionId })

/-- `WhisperProcessor._check_layer_c_finalize`: transcribe the whole
utterance buffer with the accurate backend, emit the final frame when
text came back, and clear the utterance state. -/
def finalizeC (acc : List ℚ → String) (now : ℚ) (st : WState) : WState × Option WFrame :=
  if st.utteranceBuffer = [] ∨ st.utteranceStart = none then
    ({ st with silenceCounter := 0 }, none)
  else
    ({ st with
        utteranceStart := none
        utteranceBuffer := []
        silenceCounter := 0
        layerAAcc := ""
        layerBAcc := ""
        currentLayer := "" },
      if pyStrip (acc st.utteranceBuffer.flatten) = "" then none
      else some { text := pyStrip (acc st.utteranceBuffer.flatten)
                  confidence := 19/20
                  isPartial := false
                  start_time := pyOr st.utteranceStart now
                  end_time := now
                  layer := "C"
                  captionId := st.activeCaptionId })

/-- Lines 507–513 of `_process_layer_b`: copy the buffered chunks into
the utterance buffer when an utterance is active (the audio buffer is
not cleared). -/
def stepBState1 (st : WState) : WState :=
  if st.utteranceStart ≠ none then
    { st with utteranceBuffer := st.utteranceBuffer ++ st.audioBuffer }
  else st

/-- Lines 520–525 of `_process_layer_b`: the last 2.5 s of the utterance
buffer. -/
def stepBWindow (rate : Nat) (st : WState) : List ℚ :=
  if (stepBState1 st).utteranceBuffer.flatten.length > layerBWindowSamples rate then
    lastSamples (stepBState1 st).utteranceBuffer.flatten (layerBWindowSamples rate)
  else (stepBState1 st).utteranceBuffer.flatten

/-- Line 548: a silent evaluation increments the silence counter. -/
def bumpSilence (st : WState) : WState :=
  { st with silenceCounter := st.silenceCounter + 1 }

/-- Lines 557–561: a speech evaluation resets the silence counter and
starts an utterance if none is active. -/
def stepBSpeechState (now : ℚ) (st : WState) : WState :=
  if (stepBState1 st).utteranceStart = none then
    { stepBState1 st with silenceCounter := 0, utteranceStart := some now }
  else
    { stepBState1 st with silenceCounter := 0 }

/-- Lines 571–601 of `_process_layer_b`: merge the new text into the
Layer B accumulation (extend-or-append, then take over Layer A's
surplus), marking Layer B active. -/
def stepBMerge (newText : String) (st : WState) : WState :=
  if st.currentLayer = "B" then
    { st with layerBAcc := appendSurplus (mergeExtend st.layerBAcc newText) st.layerAAcc }
  else
    { st with layerBAcc := appendSurplus newText st.layerAAcc, currentLayer := "B" }

/-- `WhisperProcessor._process_layer_b`: the sliding-window pass,
including the silence counting and the Layer C trigger.  `speech` is the
`_detect_speech` verdict for the window, `acc` the accurate backend. -/
def stepB (rate : Nat) (acc : List ℚ → String) (speech : Bool) (now : ℚ) (st : WState) :
    WState × Option WFrame :=
  if st.audioBuffer = [] then finalizeC acc now st else
  if (stepBState1 st).utteranceBuffer = [] then (stepBState1 st, none) else
  if (stepBWindow rate st).length < layerBMinSamples rate then (stepBState1 st, none) else
  if ¬ speech then
    if (bumpSilence (stepBState1 st)).silenceCounter ≥ silenceThresholdCount then
      finalizeC acc now (bumpSilence (stepBState1 st))
    else (bumpSilence (stepBState1 st), none)
  else
  if pyStrip (acc (stepBWindow rate st)) = "" then (stepBSpeechState now st, none) else
  (stepBMerge (pyStrip (acc (stepBWindow rate st))) (stepBSpeechState now st),
    some { text := (stepBMerge (pyStrip (acc (stepBWindow rate st)))
             (stepBSpeechState now st)).layerBAcc
           confidence := 3/4
           isPartial := true
           start_time := pyOr (stepBSpeechState now st).utteranceStart now
           end_time := now
           layer := "B"
           captionId := (stepBMerge (pyStrip (acc (stepBWindow rate st)))
             (stepBSpeechState now st)).activeCaptionId })

/-- One observable event of a channel's worker: an audio-callback
append, a buffer trim, or a Layer A / Layer B tick with its speech
verdict. -/
inductive WEvent
  | append (chunk : List ℚ)
  | trim
  | tickA (speech : Bool) (now : ℚ)
  | tickB (speech : Bool) (now : ℚ)

/-- One step of the channel state machine. -/
def wStep (rate : Nat) (fast acc : List ℚ → String) (st : WState) (e : WEvent) :
    WState × Option WFrame :=
  match e with
  | .append chunk => ({ st with audioBuffer := st.audioBuffer ++ [chunk] }, none)
  | .trim => (trimAudioBuffer rate st, none)
  | .tickA speech now => stepA rate fast speech now st
  | .tickB speech now => stepB rate acc speech now st

/-- Run a sequence of events from the fresh state, collecting every
emitted frame tagged with the index of the utterance in progress at
emission time (`starts - 1`: the number of utterances begun so far,
minus one). -/
def wRun (rate : Nat) (fast acc : List ℚ → String) (es : List WEvent) :
    WState × List (Nat × WFrame) :=
  es.foldl
    (fun p e =>
      ((wStep rate fast acc p.1 e).1,
        p.2 ++ (match (wStep rate fast acc p.1 e).2 with
          | none => []
          | some f => [((wStep rate fast acc p.1 e).1.starts - 1, f)])))
    (initW, [])

/-! ## C9 — trim is idempotent and keeps at most the last 5 seconds -/

/-- C9: `_trim_audio_buffer` is idempotent (a second trim with no
intervening append changes nothing), and after one trim the buffer
holds at most `rate * 5` samples — exactly the most recent ones (the
concatenated buffer becomes the suffix of the old concatenated buffer
of length at most 5 seconds). -/
theorem trim_idempotent_and_bounded (rate : Nat) (st : WState) :
    trimAudioBuffer rate (trimAudioBuffer rate st) = trimAudioBuffer rate st ∧
    ((trimAudioBuffer rate st).audioBuffer.flatten).length ≤ trimMaxSamples rate ∧
    (trimAudioBuffer rate st).audioBuffer.flatten =
      st.audioBuffer.flatten.drop (st.audioBuffer.flatten.length - trimMaxSamples rate) := by
  by_cases h1 : st.audioBuffer = []
  · have he : trimAudioBuffer rate st = st := by
      unfold trimAudioBuffer
      rw [if_pos h1]
    refine ⟨by rw [he]; exact he, ?_, ?_⟩
    · rw [he, h1]
      simp
    · rw [he, h1]
      simp
  · by_cases h2 : st.audioBuffer.flatten.length > trimMaxSamples rate
    · have he : trimAudioBuffer rate st =
          { st with audioBuffer := [lastSamples st.audioBuffer.flatten (trimMaxSamples rate)] } := by
        unfold trimAudioBuffer
        rw [if_neg h1, if_pos h2]
      have hflat : (trimAudioBuffer rate st).audioBuffer.flatten =
          lastSamples st.audioBuffer.flatten (trimMaxSamples rate) := by
        rw [he]
        simp
      have hlen : (lastSamples st.audioBuffer.flatten (trimMaxSamples rate)).length =
          trimMaxSamples rate := by
        unfold lastSamples
        rw [List.length_drop]
        omega
      refine ⟨?_, ?_, ?_⟩
      · rw [he]
        unfold trimAudioBuffer
        rw [if_neg (by simp)]
        rw [if_neg (by
          simp only [List.flatten_cons, List.flatten_nil, List.append_nil, hlen]
          omega)]
      · rw [hflat, hlen]
      · rw [hflat]
        rfl
    · have he : trimAudioBuffer rate st = st := by
        unfold trimAudioBuffer
        rw [if_neg h1, if_neg h2]
      refine ⟨by rw [he, he], ?_, ?_⟩
      · rw [he]
        omega
      · rw [he, show st.audioBuffer.flatten.length - trimMaxSamples rate = 0 from by omega]
        rfl

/-! ## C4 — Layer A never regresses the active layer from "B" -/

/-- C4: once the channel's active layer is `"B"`, a Layer A pass leaves
it `"B"` (`_process_layer_a` only sets `_current_layer` to `"A"` when no
layer is active). -/
theorem stepAStart_currentLayer (now : ℚ) (st : WState) :
    (stepAStart now st).currentLayer = st.currentLayer := by
  unfold stepAStart
  split <;> rfl

theorem stepAState_currentLayer (rate : Nat) (now : ℚ) (st : WState) :
    (stepAState rate now st).currentLayer = st.currentLayer := by
  unfold stepAState pushUtterance
  rw [show ({ stepAStart now st with
    utteranceBuffer := (stepAStart now st).utteranceBuffer ++ [stepAAudio rate st] } :
      WState).currentLayer = (stepAStart now st).currentLayer from rfl]
  exact stepAStart_currentLayer now st

theorem stepAMerge_currentLayer_B (newText : String) (st : WState)
    (h : st.currentLayer = "B") : (stepAMerge newText st).currentLayer = "B" := by
  unfold stepAMerge
  rw [h]
  rw [if_neg (by decide), if_neg (by decide)]

theorem layer_b_not_regressed_by_layer_a (rate : Nat) (fast : List ℚ → String)
    (speech : Bool) (now : ℚ) (st : WState) (h : st.currentLayer = "B") :
    ((stepA rate fast speech now st).1).currentLayer = "B" := by
  unfold stepA
  split
  · exact h
  · split
    · exact h
    · split
      · exact h
      · split
        · show (stepAState rate now st).currentLayer = "B"
          rw [stepAState_currentLayer]
          exact h
        · show (stepAMerge (pyStrip (fast (stepAAudio rate st)))
            (stepAState rate now st)).currentLayer = "B"
          apply stepAMerge_currentLayer_B
          rw [stepAState_currentLayer]
          exact h

/-- Witness for C4 at a concrete state with active layer `"B"`. -/
theorem layer_b_not_regressed_by_layer_a_witness :
    ((stepA 10 (fun _ => "x") true 1
      { audioBuffer := [[0, 0, 0]]
        utteranceStart := some 1
        utteranceBuffer := [[0]]
        silenceCounter := 0
        layerAAcc := ""
        layerBAcc := "hello"
        currentLayer := "B"
        activeCaptionId := some 0
        starts := 1 }).1).currentLayer = "B" :=
  layer_b_not_regressed_by_layer_a 10 (fun _ => "x") true 1 _ rfl

/-! ## C6 — Layer C finalize: full-buffer transcription, final frame,
utterance state cleared -/

/-- C6: when `_check_layer_c_finalize` runs with an active utterance, it
clears the utterance start, the utterance accumulation buffer, the
silence counter, both layer accumulations and the active-layer tag
(back to IDLE), and — whenever the accurate backend returned text for
the *entire* utterance buffer — emits that text as a non-partial frame
with layer `"C"` and confidence 0.95 carrying the utterance's caption
id. -/
theorem finalize_emits_final_and_clears (acc : List ℚ → String) (now t : ℚ) (st : WState)
    (hstart : st.utteranceStart = some t) (hbuf : st.utteranceBuffer ≠ []) :
    ((finalizeC acc now st).1).utteranceStart = none ∧
    ((finalizeC acc now st).1).utteranceBuffer = [] ∧
    ((finalizeC acc now st).1).silenceCounter = 0 ∧
    ((finalizeC acc now st).1).layerAAcc = "" ∧
    ((finalizeC acc now st).1).layerBAcc = "" ∧
    ((finalizeC acc now st).1).currentLayer = "" ∧
    (pyStrip (acc st.utteranceBuffer.flatten) ≠ "" →
      (finalizeC acc now st).2 =
        some { text := pyStrip (acc st.utteranceBuffer.flatten)
               confidence := 19/20
               isPartial := false
               start_time := pyOr st.utteranceStart now
               end_time := now
               layer := "C"
               captionId := st.activeCaptionId }) := by
  have hcond : ¬ (st.utteranceBuffer = [] ∨ st.utteranceStart = none) := by
    rw [not_or]
    exact ⟨hbuf, by rw [hstart]; exact Option.noConfusion⟩
  unfold finalizeC
  rw [if_neg hcond]
  refine ⟨rfl, rfl, rfl, rfl, rfl, rfl, ?_⟩
  intro hne
  rw [if_neg hne]

/-- A concrete state with an active utterance for the C6 witness. -/
def finState : WState :=
  { audioBuffer := [[0]]
    utteranceStart := some 1
    utteranceBuffer := [[0, 0]]
    silenceCounter := 2
    layerAAcc := "he"
    layerBAcc := "hel"
    currentLayer := "B"
    activeCaptionId := some 0
    starts := 1 }

/-- Witness for C6: finalizing `finState` with a backend returning
`"ok"` clears the utterance state and emits the final frame. -/
theorem finalize_emits_final_and_clears_witness :
    ((finalizeC (fun _ => "ok") 2 finState).1).utteranceStart = none ∧
    (finalizeC (fun _ => "ok") 2 finState).2 =
      some { text := pyStrip ((fun _ => "ok") finState.utteranceBuffer.flatten)
             confidence := 19/20
             isPartial := false
             start_time := pyOr finState.utteranceStart 2
             end_time := 2
             layer := "C"
             captionId := finState.activeCaptionId } :=
  ⟨(finalize_emits_final_and_clears (fun _ => "ok") 2 1 finState rfl (by decide)).1,
    (finalize_emits_final_and_clears (fun _ => "ok") 2 1 finState rfl (by decide)).2.2.2.2.2.2
      (by decide)⟩

/-! ## C5 — Layer C is triggered by Layer B only after 2 consecutive
silent evaluations; speech resets the counter -/

theorem finalizeC_audio (acc : List ℚ → String) (now : ℚ) (st : WState) :
    ((finalizeC acc now st).1).audioBuffer = st.audioBuffer := by
  unfold finalizeC
  split <;> rfl

/-- In every state the three-layer loop can reach, a nonempty utterance
buffer implies a nonempty audio buffer: audio only enters the utterance
buffer out of the (never-cleared) audio buffer. -/
def BufInv (st : WState) : Prop := st.utteranceBuffer ≠ [] → st.audioBuffer ≠ []

theorem finalizeC_bufinv (acc : List ℚ → String) (now : ℚ) (st : WState) (h : BufInv st) :
    BufInv (finalizeC acc now st).1 := by
  unfold finalizeC
  split
  · intro hu
    exact h hu
  · intro hu
    exact absurd rfl hu

theorem stepAStart_audio (now : ℚ) (st : WState) :
    (stepAStart now st).audioBuffer = st.audioBuffer := by
  unfold stepAStart
  split <;> rfl

theorem stepAState_audio (rate : Nat) (now : ℚ) (st : WState) :
    (stepAState rate now st).audioBuffer = st.audioBuffer := by
  unfold stepAState pushUtterance
  rw [show ({ stepAStart now st with
    utteranceBuffer := (stepAStart now st).utteranceBuffer ++ [stepAAudio rate st] } :
      WState).audioBuffer = (stepAStart now st).audioBuffer from rfl]
  exact stepAStart_audio now st

theorem stepAMerge_audio (newText : String) (st : WState) :
    (stepAMerge newText st).audioBuffer = st.audioBuffer := by
  unfold stepAMerge
  split
  · rfl
  · split <;> rfl

theorem stepA_audio (rate : Nat) (fast : List ℚ → String) (speech : Bool) (now : ℚ)
    (st : WState) : ((stepA rate fast speech now st).1).audioBuffer = st.audioBuffer := by
  unfold stepA
  split
  · rfl
  · split
    · rfl
    · split
      · rfl
      · split
        · show (stepAState rate now st).audioBuffer = st.audioBuffer
          exact stepAState_audio rate now st
        · show (stepAMerge (pyStrip (fast (stepAAudio rate st)))
            (stepAState rate now st)).audioBuffer = st.audioBuffer
          rw [stepAMerge_audio]
          exact stepAState_audio rate now st

theorem stepBState1_audio (st : WState) : (stepBState1 st).audioBuffer = st.audioBuffer := by
  unfold stepBState1
  split <;> rfl

theorem stepBState1_counter (st : WState) :
    (stepBState1 st).silenceCounter = st.silenceCounter := by
  unfold stepBState1
  split <;> rfl

theorem stepBSpeechState_audio (now : ℚ) (st : WState) :
    (stepBSpeechState now st).audioBuffer = st.audioBuffer := by
  unfold stepBSpeechState
  split
  · rw [show ({ stepBState1 st with silenceCounter := 0, utteranceStart := some now } :
      WState).audioBuffer = (stepBState1 st).audioBuffer from rfl]
    exact stepBState1_audio st
  · rw [show ({ stepBState1 st with silenceCounter := 0 } :
      WState).audioBuffer = (stepBState1 st).audioBuffer from rfl]
    exact stepBState1_audio st

theorem stepBSpeechState_counter (now : ℚ) (st : WState) :
    (stepBSpeechState now st).silenceCounter = 0 := by
  unfold stepBSpeechState
  split <;> rfl

theorem stepBMerge_audio (newText : String) (st : WState) :
    (stepBMerge newText st).audioBuffer = st.audioBuffer := by
  unfold stepBMerge
  split <;> rfl

theorem stepBMerge_counter (newText : String) (st : WState) :
    (stepBMerge newText st).silenceCounter = st.silenceCounter := by
  unfold stepBMerge
  split <;> rfl

theorem wStep_bufinv (rate : Nat) (fast acc : List ℚ → String) (st : WState) (e : WEvent)
    (h : BufInv st) : BufInv (wStep rate fast acc st e).1 := by
  match e with
  | .append chunk =>
    intro _
    simp [wStep]
  | .trim =>
    show BufInv (trimAudioBuffer rate st)
    unfold trimAudioBuffer
    split
    · exact h
    · split
      · intro _
        simp
      · exact h
  | .tickA speech now =>
    show BufInv (stepA rate fast speech now st).1
    intro hu
    rw [stepA_audio]
    unfold stepA at hu
    split at hu
    · exact h hu
    · next hab =>
      split at hu
      · exact h hu
      · split at hu
        · exact h hu
        · exact hab
  | .tickB speech now =>
    show BufInv (stepB rate acc speech now st).1
    unfold stepB
    split
    · exact finalizeC_bufinv acc now st h
    · next hab =>
      split
      · intro _
        rw [stepBState1_audio]
        exact hab
      · split
        · intro _
          rw [stepBState1_audio]
          exact hab
        · split
          · split
            · intro _
              rw [finalizeC_audio]
              show (bumpSilence (stepBState1 st)).audioBuffer ≠ []
              rw [show (bumpSilence (stepBState1 st)).audioBuffer =
                (stepBState1 st).audioBuffer from rfl, stepBState1_audio]
              exact hab
            · intro _
              rw [show (bumpSilence (stepBState1 st)).audioBuffer =
                (stepBState1 st).audioBuffer from rfl, stepBState1_audio]
              exact hab
          · split
            · intro _
              rw [stepBSpeechState_audio]
              exact hab
            · intro _
              rw [stepBMerge_audio, stepBSpeechState_audio]
              exact hab

/-- The reachable-state invariant. -/
theorem wRun_bufinv (rate : Nat) (fast acc : List ℚ → String) (es : List WEvent) :
    BufInv (wRun rate fast acc es).1 := by
  unfold wRun
  refine foldl_inv (fun p => BufInv p.1)
    (fun p e =>
      ((wStep rate fast acc p.1 e).1,
        p.2 ++ (match (wStep rate fast acc p.1 e).2 with
          | none => []
          | some f => [((wStep rate fast acc p.1 e).1.starts - 1, f)])))
    es (initW, []) ?_ ?_
  · intro hu
    exact absurd rfl hu
  · intro p e _ hp
    exact wStep_bufinv rate fast acc p.1 e hp

theorem stepB_final_needs_silence (rate : Nat) (acc : List ℚ → String) (speech : Bool)
    (now : ℚ) (st : WState) (hP : BufInv st) (f : WFrame)
    (hemit : (stepB rate acc speech now st).2 = some f) (hfinal : f.isPartial = false) :
    speech = false ∧ st.silenceCounter + 1 ≥ silenceThresholdCount := by
  unfold stepB at hemit
  split at hemit
  · next hab =>
    have hu : st.utteranceBuffer = [] := by
      by_contra hc
      exact (hP hc) hab
    unfold finalizeC at hemit
    rw [if_pos (Or.inl hu)] at hemit
    exact absurd hemit (by simp)
  · split at hemit
    · exact absurd hemit (by simp)
    · split at hemit
      · exact absurd hemit (by simp)
      · split at hemit
        · next hnsp =>
          split at hemit
          · next hcnt =>
            refine ⟨?_, ?_⟩
            · cases speech with
              | false => rfl
              | true => exact absurd rfl hnsp
            · rw [show (bumpSilence (stepBState1 st)).silenceCounter =
                (stepBState1 st).silenceCounter + 1 from rfl, stepBState1_counter] at hcnt
              exact hcnt
          · exact absurd hemit (by simp)
        · split at hemit
          · exact absurd hemit (by simp)
          · rw [Option.some_inj] at hemit
            rw [← hemit] at hfinal
            exact absurd hfinal (by simp)

/-- C5: a Layer C finalize out of `_process_layer_b`, from any reachable
channel state, only happens on a silent evaluation that brings the
silence counter to the threshold of 2 consecutive silent evaluations;
and any Layer B evaluation that reaches speech detection and detects
speech resets the silence counter to zero. -/
theorem layer_c_requires_sustained_silence :
    (∀ (rate : Nat) (fast acc : List ℚ → String) (es : List WEvent) (speech : Bool)
        (now : ℚ) (f : WFrame),
      (stepB rate acc speech now (wRun rate fast acc es).1).2 = some f →
      f.isPartial = false →
      speech = false ∧
        (wRun rate fast acc es).1.silenceCounter + 1 ≥ silenceThresholdCount) ∧
    (∀ (rate : Nat) (acc : List ℚ → String) (now : ℚ) (st : WState),
      st.audioBuffer ≠ [] →
      (stepBState1 st).utteranceBuffer ≠ [] →
      ¬ ((stepBWindow rate st).length < layerBMinSamples rate) →
      ((stepB rate acc true now st).1).silenceCounter = 0) := by
  constructor
  · intro rate fast acc es speech now f hemit hfinal
    exact stepB_final_needs_silence rate acc speech now (wRun rate fast acc es).1
      (wRun_bufinv rate fast acc es) f hemit hfinal
  · intro rate acc now st h1 h2 h3
    unfold stepB
    rw [if_neg h1, if_neg h2, if_neg h3, if_neg (by simp)]
    split
    · exact stepBSpeechState_counter now st
    · rw [stepBMerge_counter]
      exact stepBSpeechState_counter now st

/-- A concrete reachable-shape state for the C5 witness (rate 1: the
window minimum is one sample). -/
def silState : WState :=
  { audioBuffer := [[0]]
    utteranceStart := some 1
    utteranceBuffer := [[0]]
    silenceCounter := 1
    layerAAcc := ""
    layerBAcc := ""
    currentLayer := "A"
    activeCaptionId := some 0
    starts := 1 }

/-- Witness for C5 (the speech-resets-the-counter part at a concrete
state). -/
theorem layer_c_requires_sustained_silence_witness :
    ((stepB 1 (fun _ => "ok") true 5 silState).1).silenceCounter = 0 :=
  layer_c_requires_sustained_silence.2 1 (fun _ => "ok") 5 silState
    (by decide) (by decide) (by decide)

/-! ## C8 — one caption id per utterance, distinct across utterances -/

/-- Id bookkeeping invariant of reachable states: an active utterance
(nonempty accumulation implies an utterance in progress) always has the
caption id drawn at its start — the id of the most recently begun
utterance (`starts - 1`). -/
def WIdInv (st : WState) : Prop :=
  (st.utteranceBuffer ≠ [] → st.utteranceStart ≠ none) ∧
  (st.utteranceStart ≠ none → st.activeCaptionId = some (st.starts - 1))

theorem stepAStart_start_ne (now : ℚ) (st : WState) :
    (stepAStart now st).utteranceStart ≠ none := by
  unfold stepAStart
  split
  · intro hcontr
    exact Option.noConfusion hcontr
  · next hn => exact hn

theorem stepAStart_id (now : ℚ) (st : WState) (h : WIdInv st) :
    (stepAStart now st).activeCaptionId = some ((stepAStart now st).starts - 1) := by
  unfold stepAStart
  split
  · show some st.starts = some (st.starts + 1 - 1)
    simp
  · next hn => exact h.2 hn

theorem stepAState_idinv (rate : Nat) (now : ℚ) (st : WState) (h : WIdInv st) :
    WIdInv (stepAState rate now st) := by
  constructor
  · intro _
    show (stepAStart now st).utteranceStart ≠ none
    exact stepAStart_start_ne now st
  · intro _
    show (stepAStart now st).activeCaptionId = some ((stepAStart now st).starts - 1)
    exact stepAStart_id now st h

theorem stepAMerge_start (newText : String) (st : WState) :
    (stepAMerge newText st).utteranceStart = st.utteranceStart := by
  unfold stepAMerge
  split
  · rfl
  · split <;> rfl

theorem stepAMerge_utt (newText : String) (st : WState) :
    (stepAMerge newText st).utteranceBuffer = st.utteranceBuffer := by
  unfold stepAMerge
  split
  · rfl
  · split <;> rfl

theorem stepAMerge_id (newText : String) (st : WState) :
    (stepAMerge newText st).activeCaptionId = st.activeCaptionId := by
  unfold stepAMerge
  split
  · rfl
  · split <;> rfl

theorem stepAMerge_starts (newText : String) (st : WState) :
    (stepAMerge newText st).starts = st.starts := by
  unfold stepAMerge
  split
  · rfl
  · split <;> rfl

theorem stepAMerge_idinv (newText : String) (st : WState) (h : WIdInv st) :
    WIdInv (stepAMerge newText st) := by
  constructor
  · intro hu
    rw [stepAMerge_utt] at hu
    rw [stepAMerge_start]
    exact h.1 hu
  · intro hs
    rw [stepAMerge_start] at hs
    rw [stepAMerge_id, stepAMerge_starts]
    exact h.2 hs

theorem stepA_idinv (rate : Nat) (fast : List ℚ → String) (speech : Bool) (now : ℚ)
    (st : WState) (h : WIdInv st) :
    WIdInv (stepA rate fast speech now st).1 ∧
    ∀ f, (stepA rate fast speech now st).2 = some f →
      f.captionId = some ((stepA rate fast speech now st).1.starts - 1) := by
  unfold stepA
  split
  · exact ⟨h, fun f hf => absurd hf (by simp)⟩
  · split
    · exact ⟨h, fun f hf => absurd hf (by simp)⟩
    · split
      · exact ⟨h, fun f hf => absurd hf (by simp)⟩
      · split
        · exact ⟨stepAState_idinv rate now st h, fun f hf => absurd hf (by simp)⟩
        · constructor
          · exact stepAMerge_idinv _ _ (stepAState_idinv rate now st h)
          · intro f hf
            rw [show ((stepAMerge (pyStrip (fast (stepAAudio rate st))) (stepAState rate now st),
                some { text := stepADisplay (stepAMerge (pyStrip (fast (stepAAudio rate st)))
                         (stepAState rate now st))
                       confidence := 1/2
                       isPartial := true
                       start_time := pyOr (stepAState rate now st).utteranceStart now
                       end_time := now
                       layer := "A"
                       captionId := (stepAMerge (pyStrip (fast (stepAAudio rate st)))
                         (stepAState rate now st)).activeCaptionId }) :
                WState × Option WFrame).2 =
              some { text := stepADisplay (stepAMerge (pyStrip (fast (stepAAudio rate st)))
                       (stepAState rate now st))
                     confidence := 1/2
                     isPartial := true
                     start_time := pyOr (stepAState rate now st).utteranceStart now
                     end_time := now
                     layer := "A"
                     captionId := (stepAMerge (pyStrip (fast (stepAAudio rate st)))
                       (stepAState rate now st)).activeCaptionId } from rfl] at hf
            rw [Option.some_inj] at hf
            rw [← hf]
            show (stepAMerge (pyStrip (fast (stepAAudio rate st)))
              (stepAState rate now st)).activeCaptionId =
              some ((stepAMerge (pyStrip (fast (stepAAudio rate st)))
                (stepAState rate now st)).starts - 1)
            rw [stepAMerge_id, stepAMerge_starts]
            show (stepAStart now st).activeCaptionId = some ((stepAStart now st).starts - 1)
            exact stepAStart_id now st h

theorem finalizeC_idinv (acc : List ℚ → String) (now : ℚ) (st : WState) (h : WIdInv st) :
    WIdInv (finalizeC acc now st).1 ∧
    ∀ f, (finalizeC acc now st).2 = some f →
      f.captionId = some ((finalizeC acc now st).1.starts - 1) := by
  unfold finalizeC
  split
  · exact ⟨⟨h.1, h.2⟩, fun f hf => absurd hf (by simp)⟩
  · next hcond =>
    constructor
    · constructor
      · intro hu
        exact absurd rfl hu
      · intro hs
        exact absurd rfl hs
    · intro f hf
      rw [not_or] at hcond
      split at hf
      · exact absurd hf (by simp)
      · rw [Option.some_inj] at hf
        rw [← hf]
        show st.activeCaptionId = some (st.starts - 1)
        exact h.2 hcond.2

theorem stepBState1_idinv (st : WState) (h : WIdInv st) : WIdInv (stepBState1 st) := by
  unfold stepBState1
  split
  · next hs =>
    constructor
    · intro _
      exact hs
    · intro _
      exact h.2 hs
  · exact h

theorem stepBSpeechState_eq (now : ℚ) (st : WState)
    (hs : (stepBState1 st).utteranceStart ≠ none) :
    stepBSpeechState now st = { stepBState1 st with silenceCounter := 0 } := by
  unfold stepBSpeechState
  rw [if_neg hs]

theorem stepBMerge_start (newText : String) (st : WState) :
    (stepBMerge newText st).utteranceStart = st.utteranceStart := by
  unfold stepBMerge
  split <;> rfl

theorem stepBMerge_utt (newText : String) (st : WState) :
    (stepBMerge newText st).utteranceBuffer = st.utteranceBuffer := by
  unfold stepBMerge
  split <;> rfl

theorem stepBMerge_id (newText : String) (st : WState) :
    (stepBMerge newText st).activeCaptionId = st.activeCaptionId := by
  unfold stepBMerge
  split <;> rfl

theorem stepBMerge_starts (newText : String) (st : WState) :
    (stepBMerge newText st).starts = st.starts := by
  unfold stepBMerge
  split <;> rfl

theorem stepBMerge_idinv (newText : String) (st : WState) (h : WIdInv st) :
    WIdInv (stepBMerge newText st) := by
  constructor
  · intro hub
    rw [stepBMerge_utt] at hub
    rw [stepBMerge_start]
    exact h.1 hub
  · intro hs
    rw [stepBMerge_start] at hs
    rw [stepBMerge_id, stepBMerge_starts]
    exact h.2 hs

theorem stepB_idinv (rate : Nat) (acc : List ℚ → String) (speech : Bool) (now : ℚ)
    (st : WState) (h : WIdInv st) :
    WIdInv (stepB rate acc speech now st).1 ∧
    ∀ f, (stepB rate acc speech now st).2 = some f →
      f.captionId = some ((stepB rate acc speech now st).1.starts - 1) := by
  unfold stepB
  split
  · exact finalizeC_idinv acc now st h
  · split
    · exact ⟨stepBState1_idinv st h, fun f hf => absurd hf (by simp)⟩
    · next hub =>
      have hst1 : WIdInv (stepBState1 st) := stepBState1_idinv st h
      have hs1 : (stepBState1 st).utteranceStart ≠ none := hst1.1 hub
      split
      · exact ⟨hst1, fun f hf => absurd hf (by simp)⟩
      · split
        · split
          · exact finalizeC_idinv acc now (bumpSilence (stepBState1 st)) ⟨hst1.1, hst1.2⟩
          · exact ⟨⟨hst1.1, hst1.2⟩, fun f hf => absurd hf (by simp)⟩
        · rw [stepBSpeechState_eq now st hs1]
          have hsp : WIdInv ({ stepBState1 st with silenceCounter := 0 } : WState) :=
            ⟨hst1.1, hst1.2⟩
          split
          · exact ⟨hsp, fun f hf => absurd hf (by simp)⟩
          · constructor
            · exact stepBMerge_idinv _ _ hsp
            · intro f hf
              rw [Option.some_inj] at hf
              rw [← hf]
              show (stepBMerge (pyStrip (acc (stepBWindow rate st)))
                ({ stepBState1 st with silenceCounter := 0 })).activeCaptionId =
                some ((stepBMerge (pyStrip (acc (stepBWindow rate st)))
                  ({ stepBState1 st with silenceCounter := 0 })).starts - 1)
              rw [stepBMerge_id, stepBMerge_starts]
              show (stepBState1 st).activeCaptionId = some ((stepBState1 st).starts - 1)
              exact hst1.2 hs1

theorem wStep_idinv (rate : Nat) (fast acc : List ℚ → String) (st : WState) (e : WEvent)
    (h : WIdInv st) :
    WIdInv (wStep rate fast acc st e).1 ∧
    ∀ f, (wStep rate fast acc st e).2 = some f →
      f.captionId = some ((wStep rate fast acc st e).1.starts - 1) := by
  match e with
  | .append chunk =>
    exact ⟨⟨h.1, h.2⟩, fun f hf => absurd hf (by simp [wStep])⟩
  | .trim =>
    refine ⟨?_, fun f hf => absurd hf (by simp [wStep])⟩
    show WIdInv (trimAudioBuffer rate st)
    unfold trimAudioBuffer
    split
    · exact h
    · split
      · exact ⟨h.1, h.2⟩
      · exact h
  | .tickA speech now => exact stepA_idinv rate fast speech now st h
  | .tickB speech now => exact stepB_idinv rate acc speech now st h

/-- Reachable states satisfy the id invariant, and every frame collected
by `wRun` carries the caption id of the utterance it was emitted in. -/
theorem wRun_ids (rate : Nat) (fast acc : List ℚ → String) (es : List WEvent) :
    WIdInv (wRun rate fast acc es).1 ∧
    ∀ q ∈ (wRun rate fast acc es).2, q.2.captionId = some q.1 := by
  unfold wRun
  refine foldl_inv
    (fun p => WIdInv p.1 ∧ ∀ q ∈ p.2, q.2.captionId = some q.1)
    (fun p e =>
      ((wStep rate fast acc p.1 e).1,
        p.2 ++ (match (wStep rate fast acc p.1 e).2 with
          | none => []
          | some f => [((wStep rate fast acc p.1 e).1.starts - 1, f)])))
    es (initW, []) ?_ ?_
  · refine ⟨⟨?_, ?_⟩, ?_⟩
    · intro hu
      exact absurd rfl hu
    · intro hs
      exact absurd rfl hs
    · intro q hq
      exact absurd hq (List.not_mem_nil q)
  · intro p e _ hp
    have hstep := wStep_idinv rate fast acc p.1 e hp.1
    refine ⟨hstep.1, ?_⟩
    intro q hq
    rw [List.mem_append] at hq
    cases hq with
    | inl hq => exact hp.2 q hq
    | inr hq =>
      cases hemit : (wStep rate fast acc p.1 e).2 with
      | none =>
        rw [hemit] at hq
        exact absurd hq (List.not_mem_nil q)
      | some f =>
        rw [hemit] at hq
        have hq2 : q ∈ [((wStep rate fast acc p.1 e).1.starts - 1, f)] := hq
        rw [List.mem_singleton] at hq2
        rw [hq2]
        exact hstep.2 f hemit

/-- C8: every frame the channel emits — Layer A / Layer B partials and
Layer C finals alike — carries `caption_id = some i`, where `i` is the
index of the utterance in progress at emission time (the unique id
generated when the utterance started, modelled as a fresh counter);
consequently two emitted frames carry the same `caption_id` exactly
when they belong to the same utterance, and frames of distinct
utterances carry distinct ids. -/
theorem caption_id_per_utterance (rate : Nat) (fast acc : List ℚ → String)
    (es : List WEvent) :
    (∀ p ∈ (wRun rate fast acc es).2, p.2.captionId = some p.1) ∧
    (∀ p ∈ (wRun rate fast acc es).2, ∀ q ∈ (wRun rate fast acc es).2,
      (p.2.captionId = q.2.captionId ↔ p.1 = q.1)) := by
  have key := wRun_ids rate fast acc es
  refine ⟨key.2, ?_⟩
  intro p hp q hq
  rw [key.2 p hp, key.2 q hq]
  exact ⟨fun h2 => Option.some_inj.mp h2, fun h2 => by rw [h2]⟩

/-- A concrete utterance for the C8 witness: the Layer A frame emitted
for the first utterance of a run. -/
def c8Frame : WFrame :=
  { text := "hi"
    confidence := 1/2
    isPartial := true
    start_time := 1
    end_time := 1
    layer := "A"
    captionId := some 0 }

def c8Events : List WEvent := [.append [0, 0], .tickA true 1]

/-- C8 witness: on a concrete run the emitted frame indeed carries the
id of utterance 0. -/
theorem caption_id_per_utterance_witness :
    (0, c8Frame) ∈ (wRun 10 (fun _ => "hi") (fun _ => "") c8Events).2 ∧
    c8Frame.captionId = some 0 := by
  have hrun : (wRun 10 (fun _ => "hi") (fun _ => "") c8Events).2 = [(0, c8Frame)] := rfl
  have hmem : (0, c8Frame) ∈ (wRun 10 (fun _ => "hi") (fun _ => "") c8Events).2 := by
    rw [hrun]
    exact List.mem_singleton.mpr rfl
  exact ⟨hmem,
    (caption_id_per_utterance 10 (fun _ => "hi") (fun _ => "") c8Events).1 (0, c8Frame) hmem⟩

/-! ## C7 — the voice-activity gate (`vad_OLD.py` / `_detect_speech`)

`VADDetector` keeps a hangover deque of the most recent raw per-frame
verdicts (`speech_frames`, `maxlen = hangover_ms / frame_duration_ms`);
`process_frame` pushes the new raw webrtcvad verdict and reports speech
when any retained verdict is speech.  The raw backend verdict for each
30 ms frame is external input, so a window is modelled as the list of
its frames' raw classifications.  `WhisperProcessor._detect_speech`
runs the window through `process_buffer` and reports speech when more
than 30 % of the frames came back as speech. -/

/-- `hangover_frames = int(hangover_ms / frame_duration_ms)` at the
parameters `WhisperProcessor` uses (`hangover_ms=300`,
`frame_duration_ms=30`). -/
def vadHangoverFrames : Nat := 300 / 30

/-- `collections.deque(maxlen=n).append`: push on the right, dropping
from the left once `maxlen` entries are held. -/
def dequePush (maxlen : Nat) (st : List Bool) (x : Bool) : List Bool :=
  (st ++ [x]).drop ((st ++ [x]).length - maxlen)

/-- `VADDetector.process_frame` (lines 114–128 of `vad_OLD.py`):
append the raw verdict to the hangover deque and report speech when
any retained verdict is speech (`has_recent_speech`).  `raw` is the
webrtcvad `is_speech` verdict for the frame; the statistics and the
confidence field (not consumed by `_detect_speech`) are omitted. -/
def vadProcessFrame (st : List Bool) (raw : Bool) : Bool × List Bool :=
  ((dequePush vadHangoverFrames st raw).any id, dequePush vadHangoverFrames st raw)

/-- `VADDetector.process_buffer`: classify each frame of the window in
order, threading the deque, collecting the per-frame decisions. -/
def vadProcessBuffer (raws : List Bool) (st : List Bool) : List Bool × List Bool :=
  raws.foldl
    (fun p raw => (p.1 ++ [(vadProcessFrame p.2 raw).1], (vadProcessFrame p.2 raw).2))
    ([], st)

/-- The deque contents after a freshly constructed gate has classified
the frames of `h` in order. -/
def vadStateAfter (h : List Bool) : List Bool := (vadProcessBuffer h []).2

/-- `WhisperProcessor._detect_speech`, lines 333–346: run the window
through the gate's `process_buffer` and report speech when more than
30 % of the frames were classified as speech (an empty window is
silence).  Returns the decision together with the gate state the call
leaves behind. -/
def detectSpeechWindow (raws : List Bool) (st : List Bool) : Bool × List Bool :=
  if (vadProcessBuffer raws st).1.length = 0 then (false, (vadProcessBuffer raws st).2)
  else
    (decide ((3/10 : ℚ) < ((vadProcessBuffer raws st).1.countP id : ℚ) /
        ((vadProcessBuffer raws st).1.length : ℚ)),
      (vadProcessBuffer raws st).2)

theorem dequePush_drop (l : List Bool) (x : Bool) :
    dequePush vadHangoverFrames (l.drop (l.length - vadHangoverFrames)) x =
      (l ++ [x]).drop ((l ++ [x]).length - vadHangoverFrames) := by
  unfold dequePush
  rw [← List.drop_append_of_le_length (Nat.sub_le l.length vadHangoverFrames),
    List.drop_drop]
  congr 1
  simp only [List.length_append, List.length_drop, List.length_singleton]
  omega

theorem vadStateAfter_append (l : List Bool) (x : Bool) :
    vadStateAfter (l ++ [x]) = dequePush vadHangoverFrames (vadStateAfter l) x := by
  unfold vadStateAfter vadProcessBuffer
  rw [List.foldl_append]
  rfl

/-- The hangover deque is exactly the last `vadHangoverFrames` raw
classifications of the gate's history. -/
theorem vadStateAfter_eq (h : List Bool) :
    vadStateAfter h = h.drop (h.length - vadHangoverFrames) := by
  induction h using List.reverseRecOn with
  | nil => rfl
  | append_singleton l x ih => rw [vadStateAfter_append, ih, dequePush_drop]

/-- C7 counterexample: the gate is NOT stateless per call.  On a window
of ten silent frames a fresh gate answers silence, but a gate whose
deque retains ten speech classifications answers speech for the very
same window (nine of the window's frames still see a speech verdict in
the hangover deque, and 9/10 > 0.3): the decision depends on which
windows were classified before. -/
theorem vad_gate_not_stateless :
    (detectSpeechWindow (List.replicate 10 false) []).1 = false ∧
    (detectSpeechWindow (List.replicate 10 false)
        (vadStateAfter (List.replicate 10 true))).1 = true ∧
    (detectSpeechWindow (List.replicate 10 false) []).1 ≠
      (detectSpeechWindow (List.replicate 10 false)
        (vadStateAfter (List.replicate 10 true))).1 := by
  have e1 : (detectSpeechWindow (List.replicate 10 false) []).1 =
      decide ((3/10 : ℚ) < ((0 : ℕ) : ℚ) / ((10 : ℕ) : ℚ)) := rfl
  have e2 : (detectSpeechWindow (List.replicate 10 false)
      (vadStateAfter (List.replicate 10 true))).1 =
      decide ((3/10 : ℚ) < ((9 : ℕ) : ℚ) / ((10 : ℕ) : ℚ)) := rfl
  have d1 : decide ((3/10 : ℚ) < ((0 : ℕ) : ℚ) / ((10 : ℕ) : ℚ)) = false :=
    decide_eq_false (by push_cast; norm_num)
  have d2 : decide ((3/10 : ℚ) < ((9 : ℕ) : ℚ) / ((10 : ℕ) : ℚ)) = true :=
    decide_eq_true (by push_cast; norm_num)
  refine ⟨e1.trans d1, e2.trans d2, ?_⟩
  rw [e1.trans d1, e2.trans d2]
  exact Bool.false_ne_true

/-- C7 (amended): the gate's decision for a window depends on the
window together with the retained hangover deque — the last
`vadHangoverFrames` (= 10) raw frame classifications of the gate's
history.  Two calls on the same window agree whenever the two gates'
histories agree on their last 10 raw classifications; statelessness
holds only in this weakened form (the deque is state the gate itself
holds, contradicting the spec's "no hangover state is held by the gate
itself"). -/
theorem vad_gate_depends_on_recent_history (w h1 h2 : List Bool)
    (hagree : h1.drop (h1.length - vadHangoverFrames) =
      h2.drop (h2.length - vadHangoverFrames)) :
    (detectSpeechWindow w (vadStateAfter h1)).1 =
      (detectSpeechWindow w (vadStateAfter h2)).1 := by
  rw [vadStateAfter_eq, vadStateAfter_eq, hagree]

/-- C7 witness: two histories that differ (one saw an extra leading
silent frame) but agree on their last 10 raw classifications give the
same decision on a fresh window. -/
theorem vad_gate_depends_on_recent_history_witness :
    (([false] ++ List.replicate 10 true).drop
        (([false] ++ List.replicate 10 true).length - vadHangoverFrames) =
      (List.replicate 10 true).drop
        ((List.replicate 10 true).length - vadHangoverFrames)) ∧
    (detectSpeechWindow (List.replicate 10 false)
        (vadStateAfter ([false] ++ List.replicate 10 true))).1 =
      (detectSpeechWindow (List.replicate 10 false)
        (vadStateAfter (List.replicate 10 true))).1 :=
  ⟨by decide,
    vad_gate_depends_on_recent_history (List.replicate 10 false)
      ([false] ++ List.replicate 10 true) (List.replicate 10 true) (by decide)⟩
